import Mathlib

/-!
# LMMS-Magenta: note/tensor codec, feature layer and model cache

A shallow embedding of the parts of the repository that the specification's
claims are about, followed by the theorems that settle them.

Conventions of the embedding

* C++ `int` is taken in `ℤ` (signed overflow is undefined behaviour in the
  source and is outside the embedding); `%` and `/` on `int` are `Int.tmod`
  and `Int.tdiv` (truncation towards zero).
* `size_t` byte counts are taken in `ℕ`; the sizes involved are far below `2^64`.
* `float` is IEEE 754 binary32.  A finite float is a rational number and `roundToFloat`
  is the rounding of an exact result to the nearest float.  The namespace
  `Ai.MidiUtils.Binary32` and `Ai.MidiUtils.mergeSequences` embed the float operations of
  `src/ai/utils` with that rounding.  Two layers take the float operations exactly, and
  say so where they are used: the codec of `src/implementation/utils` (over `ℚ`), and the
  feature layer of `Ai.MidiUtils` outside `Binary32` (over an arbitrary linearly ordered
  field, instantiated with `ℝ` where a square root is needed), which is the reading
  "arithmetic taken over the reals".  A float operation whose result is not finite (a
  division by zero) is made explicit: the function returns `none`, or the value itself is
  an `Option` with `none` for NaN or an infinity.
* `std::map` is an association list kept in key order.
* The model server is embedded twice.  `ModelServer.Locking` is the code as it runs: each
  method takes the state of the non-recursive `std::mutex`, and returns `none` when it
  locks the mutex its caller already holds, which is a call that never returns;
  `Locking.Completed` are the states reached through calls that return.  The methods of
  `ModelServer` outside `Locking` are the same bodies with every lock taken to succeed;
  the states they reach (`PublicReachable`) include those of `Completed`, so an
  invariant of `PublicReachable` is an invariant of the code.

`LmmsMagenta.Impl` holds code of `src/implementation`, `LmmsMagenta.Ai` code of
`src/ai`; the model server embedded is the one of `src/ai/model_serving`.
-/

namespace LmmsMagenta

/-! ## Part 1: definitions -/

/-! ### Data model (`MidiUtils.h`, identical in both source trees) -/

/-- The struct `MidiNote`, with the defaults of its constructor. -/
structure MidiNote where
  pitch : Int := 60
  velocity : Int := 64
  startTime : Int := 0
  duration : Int := 480
  isPercussion : Bool := false
deriving DecidableEq

/-- The struct `MidiSequence`, with the defaults of its constructor. -/
structure MidiSequence where
  notes : List MidiNote := []
  ticksPerQuarter : Int := 480
  totalTicks : Int := 1920
  timeSignatureNumerator : Int := 4
  timeSignatureDenominator : Int := 4
deriving DecidableEq

/-- The composition `static_cast<int>(std::round(x))`: `std::round` rounds to the nearest
integer, halfway cases away from zero. -/
def roundHalfAway (x : ℚ) : Int :=
  if 0 ≤ x then ⌊x + 1 / 2⌋ else ⌈x - 1 / 2⌉

/-! ### Binary32 rounding

The type `float` is IEEE 754 binary32 with rounding to nearest, ties to even.  A finite float
is a rational number; an operation on floats is the exact operation followed by
`roundToFloat` (the source is compiled for single-precision evaluation, without fused
multiply-add).  The exponent range is bounded below (the subnormal numbers are there) and not
above: overflow to infinity is not part of `roundToFloat`; every value in the theorems is far
below the largest float. -/

/-- Rounding of a rational to the nearest integer, ties to the even one. -/
def roundHalfEven (x : ℚ) : Int :=
  let f := ⌊x⌋
  if x - f < 1 / 2 then f
  else if 1 / 2 < x - f then f + 1
  else if f % 2 = 0 then f else f + 1

/-- The binary exponent of the unit in the last place of the floats around `x`: 23 below the
binary exponent `⌊log₂ |x|⌋` of `x`, and 23 below -126 for the subnormal numbers. -/
def ulpExponent (x : ℚ) : Int :=
  max (Int.log 2 |x|) (-126) - 23

/-- The float nearest to a rational `x` (ties to even): the conversion of an `int` to `float`,
and the rounding that ends every float operation. -/
def roundToFloat (x : ℚ) : ℚ :=
  roundHalfEven (x / 2 ^ ulpExponent x) * 2 ^ ulpExponent x

/-- The call `std::sqrt(x)` on a float `x ≥ 0`: the float nearest to the real square root.
With `ulp` the unit in the last place around the root, `m` is `⌊√x / ulp⌋`, and the root is
rounded up when it lies above `m + 1/2` units, that is when `x / ulp²` lies above
`(m + 1/2)²`. -/
def sqrtToFloat (x : ℚ) : ℚ :=
  let exponent := max (Int.log 2 x / 2) (-126) - 23
  let ulp : ℚ := 2 ^ exponent
  let y := x / (ulp * ulp)
  let m : Int := Nat.sqrt ⌊y⌋.toNat
  let r := if y < (m + 1 / 2) ^ 2 then m
    else if (m + 1 / 2) ^ 2 < y then m + 1
    else if m % 2 = 0 then m else m + 1
  r * ulp

namespace Impl
namespace MidiUtils

/-! ### Codec of `src/implementation/utils/MidiUtils.cpp` -/

/-- `MidiUtils::normalizeValue`. -/
def normalizeValue (value min max : ℚ) : ℚ :=
  if max = min then 1 / 2 else (value - min) / (max - min)

/-- `MidiUtils::denormalizeValue`. -/
def denormalizeValue (value min max : ℚ) : ℚ :=
  min + value * (max - min)

/-- The five values one iteration of the loop of `sequenceToTensor` pushes for a note. -/
def noteRecord (timeNormalizer : ℚ) (note : MidiNote) : List ℚ :=
  [normalizeValue note.pitch 0 127, normalizeValue note.velocity 0 127,
   note.startTime * timeNormalizer, note.duration * timeNormalizer,
   if note.isPercussion then 1 else 0]

/-- `MidiUtils::sequenceToTensor`.  With `totalTicks = 0` the source computes
`1.0f / 0`, which is not finite, and multiplies the times of every note by it: that case is
`none`, unless there is no note (the tensor is then empty). -/
def sequenceToTensor (sequence : MidiSequence) : Option (List ℚ) :=
  if sequence.totalTicks = 0 ∧ sequence.notes ≠ [] then none
  else some (sequence.notes.flatMap (noteRecord (1 / (sequence.totalTicks : ℚ))))

/-- The first loop of `tensorToSequence`: it reads the tensor five values at a time, stops at
an incomplete record, appends a note with zeroed times and tracks `maxEndTime`. -/
def decodeRecords : List ℚ → List MidiNote → ℚ → List MidiNote × ℚ
  | p :: v :: s :: d :: perc :: rest, notes, maxEndTime =>
      decodeRecords rest
        (notes ++ [{ pitch := roundHalfAway (denormalizeValue p 0 127),
                     velocity := roundHalfAway (denormalizeValue v 0 127),
                     startTime := 0, duration := 0,
                     isPercussion := decide (perc > 1 / 2) }])
        (max maxEndTime (s + d))
  | _, notes, maxEndTime => (notes, maxEndTime)

/-- `MidiUtils::tensorToSequence`: the first loop, then `totalTicks`, then the second loop
that denormalizes the times of note `i` from `tensor[i * 5 + 2]` and `tensor[i * 5 + 3]`. -/
def tensorToSequence (tensor : List ℚ) (ticksPerQuarter : Int) : MidiSequence :=
  let first := decodeRecords tensor [] 0
  let totalTicks : Int := ⌈first.2 * 4 * (ticksPerQuarter : ℚ)⌉
  { notes := first.1.enum.map (fun p =>
      { p.2 with
        startTime := roundHalfAway (tensor.getD (p.1 * 5 + 2) 0 * (totalTicks : ℚ)),
        duration := max (roundHalfAway (tensor.getD (p.1 * 5 + 3) 0 * (totalTicks : ℚ))) 1 }),
    ticksPerQuarter := ticksPerQuarter,
    totalTicks := totalTicks }

/-- `MidiUtils::findClosestGridPoint`.  (`gridSize = 0` is a division by zero in the source.) -/
def findClosestGridPoint (time gridSize : Int) : Int :=
  let remainder := time.tmod gridSize
  if remainder < gridSize.tdiv 2 then time - remainder
  else time + (gridSize - remainder)

/-- The body of the loop of `quantizeSequence`, for one note. -/
def quantizeNote (gridSize : Int) (note : MidiNote) : MidiNote :=
  let startTime := findClosestGridPoint note.startTime gridSize
  let endTime := findClosestGridPoint (startTime + note.duration) gridSize
  { note with startTime := startTime, duration := max (endTime - startTime) gridSize }

/-- `MidiUtils::quantizeSequence`. -/
def quantizeSequence (sequence : MidiSequence) (gridSize : Int) : MidiSequence :=
  { sequence with notes := sequence.notes.map (quantizeNote gridSize) }

/-- A note as the first loop of `tensorToSequence` leaves it: times zeroed. -/
def staticPart (n : MidiNote) : MidiNote := { n with startTime := 0, duration := 0 }

/-- One 4/4 bar of 2048 ticks holding a quarter note: every float operation of the codec on
its time fields is exact. -/
def quarterNoteBar : MidiSequence :=
  { notes := [{ pitch := 60, velocity := 64, startTime := 0, duration := 512,
                isPercussion := false }],
    ticksPerQuarter := 512, totalTicks := 2048 }

end MidiUtils

namespace MusicVAEModel

/-- `MusicVAEModel::interpolate` of `src/implementation/model_serving/MusicVAEModel.cpp`;
`latentDimension` is the member `m_latentDimension`. -/
def interpolate (latentDimension : Int) (z1 z2 : List ℚ) (numSteps : Int) : List (List ℚ) :=
  if (z1.length : Int) ≠ latentDimension ∨ (z2.length : Int) ≠ latentDimension then []
  else
    let numSteps := max 2 numSteps
    (List.range numSteps.toNat).map (fun (step : Nat) =>
      let t : ℚ := (step : ℚ) / ((numSteps - 1 : Int) : ℚ)
      (List.range latentDimension.toNat).map (fun (i : Nat) =>
        (1 - t) * z1.getD i 0 + t * z2.getD i 0))

end MusicVAEModel
end Impl

namespace Ai
namespace MidiUtils

/-! ### Feature layer of `src/ai/utils/src/MidiUtils.cpp` -/

section
variable {K : Type} [LinearOrderedField K]

/-- Float addition; `none` is a non-finite operand. -/
def fadd : Option K → Option K → Option K
  | some x, some y => some (x + y)
  | _, _ => none

/-- Float multiplication; `none` is a non-finite operand. -/
def fmul : Option K → Option K → Option K
  | some x, some y => some (x * y)
  | _, _ => none

/-- Float division: dividing by zero gives NaN or an infinity, `none`. -/
def fdiv : Option K → Option K → Option K
  | some x, some y => if y = 0 then none else some (x / y)
  | _, _ => none

/-- The call `std::sqrt`, given the square root of the field: NaN on a negative argument. -/
def fsqrt (sqrt : K → K) : Option K → Option K
  | some x => if x < 0 then none else some (sqrt x)
  | none => none

/-- The three local histograms of `extractSequenceFeatures`. -/
structure Histograms where
  pitchHistogram : List Int
  rhythmHistogram : List Int
  velocityHistogram : List Int

/-- The statement `histogram[bin]++`.  A bin outside the vector is undefined behaviour in the
source (only `note.pitch` is used unclamped); here it leaves the histogram as it is. -/
def increment (histogram : List Int) (bin : Int) : List Int :=
  histogram.modify (fun count => count + 1) bin.toNat

/-- The body of the histogram loop of `extractSequenceFeatures`, for one note.
(`totalTicks = 0` is an integer division by zero in the source.) -/
def countNote (totalTicks : Int) (h : Histograms) (note : MidiNote) : Histograms :=
  let rhythmBin := min 15 (max 0 ((note.startTime * 16).tdiv totalTicks))
  let velocityBin := min 15 (max 0 ((note.velocity * 16).tdiv 128))
  { pitchHistogram := increment h.pitchHistogram note.pitch,
    rhythmHistogram := increment h.rhythmHistogram rhythmBin,
    velocityHistogram := increment h.velocityHistogram velocityBin }

/-- The histograms after the loop of `extractSequenceFeatures`. -/
def histograms (sequence : MidiSequence) : Histograms :=
  sequence.notes.foldl (countNote sequence.totalTicks)
    { pitchHistogram := List.replicate 128 0,
      rhythmHistogram := List.replicate 16 0,
      velocityHistogram := List.replicate 16 0 }

/-- `MidiUtils::extractSequenceFeatures`: 128 + 16 + 16 normalized bins and the note density. -/
def extractSequenceFeatures (sequence : MidiSequence) : List (Option K) :=
  let h := histograms sequence
  let totalNotes : Option K := some (sequence.notes.length : K)
  h.pitchHistogram.map (fun (count : Int) => fdiv (some (count : K)) totalNotes)
    ++ h.rhythmHistogram.map (fun (count : Int) => fdiv (some (count : K)) totalNotes)
    ++ h.velocityHistogram.map (fun (count : Int) => fdiv (some (count : K)) totalNotes)
    ++ [fdiv totalNotes (some (sequence.totalTicks : K))]

/-- The three accumulators of the loop of `calculateSequenceSimilarity`. -/
structure CosineSums (K : Type) where
  dotProduct : Option K
  norm1 : Option K
  norm2 : Option K

/-- One iteration of the loop of `calculateSequenceSimilarity`. -/
def cosineStep (acc : CosineSums K) (f : Option K × Option K) : CosineSums K :=
  { dotProduct := fadd acc.dotProduct (fmul f.1 f.2),
    norm1 := fadd acc.norm1 (fmul f.1 f.1),
    norm2 := fadd acc.norm2 (fmul f.2 f.2) }

/-- `MidiUtils::calculateSequenceSimilarity` (cosine of the two feature vectors).  The loop
runs over the indices of `features1` and reads `features2` at the same index; both vectors
always have 161 entries, so the loop is a fold over the zipped vectors. -/
def calculateSequenceSimilarity (sqrt : K → K) (sequence1 sequence2 : MidiSequence) :
    Option K :=
  let features1 : List (Option K) := extractSequenceFeatures sequence1
  let features2 : List (Option K) := extractSequenceFeatures sequence2
  let sums : CosineSums K := (features1.zip features2).foldl cosineStep
    { dotProduct := some 0, norm1 := some 0, norm2 := some 0 }
  fdiv sums.dotProduct (fmul (fsqrt sqrt sums.norm1) (fsqrt sqrt sums.norm2))

/-- The feature values of a sequence for which every division of `extractSequenceFeatures` is
finite (a non-empty sequence with `totalTicks ≠ 0`). -/
def finiteFeatures (sequence : MidiSequence) : List K :=
  let h := histograms sequence
  let totalNotes : K := (sequence.notes.length : K)
  h.pitchHistogram.map (fun (count : Int) => (count : K) / totalNotes)
    ++ h.rhythmHistogram.map (fun (count : Int) => (count : K) / totalNotes)
    ++ h.velocityHistogram.map (fun (count : Int) => (count : K) / totalNotes)
    ++ [totalNotes / (sequence.totalTicks : K)]

/-- Sum of the squares of a list. -/
def sumSq (l : List K) : K := (l.map (fun x => x * x)).sum

end

end MidiUtils
end Ai

/-! ### Model server of `src/ai/model_serving/src/ModelServer.cpp`

The definitions of the namespace `ModelServer` give the body of each method as a state
transformer in which every `std::lock_guard` statement succeeds, the creation step is the
parameter `env.createModel` and every handle answers `getMemoryUsage()`.  The calls of the
source return on fewer inputs: a method that calls another locking method while it holds the
mutex does not return, and the source stores null handles.  The transformers therefore reach
every state the program reaches (and more) and serve for the invariants that hold in all
states; what a call of the source does is stated with the definitions of
`ModelServer.Locking`. -/

/-- The enum `ModelType` of `ModelServer.h`. -/
inductive ModelType where
  | MusicVAE | GrooVAE | MelodyRNN | CycleGAN | SmartGain | EmotionMapper
deriving DecidableEq

/-- The underlying value of a `ModelType` enumerator. -/
def ModelType.toNat : ModelType → Nat
  | .MusicVAE => 0 | .GrooVAE => 1 | .MelodyRNN => 2
  | .CycleGAN => 3 | .SmartGain => 4 | .EmotionMapper => 5

/-- The struct `ModelMetadata` of `ModelServer.h`. -/
structure ModelMetadata where
  name : String
  type : ModelType
  version : String
  memorySize : Nat
  description : String
  isQuantized : Bool
  supportsGPU : Bool
deriving DecidableEq

/-- The key type `std::pair<ModelType, std::string>` of both maps of the server. -/
abbrev ModelKey := ModelType × String

/-- The order `operator<` of `std::pair<ModelType, std::string>`: first component, then
second. -/
def keyLt (a b : ModelKey) : Bool :=
  decide (a.1.toNat < b.1.toNat) || (decide (a.1 = b.1) && decide (a.2 < b.2))

/-- The call `std::map::find`: the value stored under `key`, if any. -/
def mapFind {V : Type} (m : List (ModelKey × V)) (key : ModelKey) : Option V :=
  (m.find? (fun p => decide (p.1 = key))).map Prod.snd

/-- The assignment `m[key] = v` on a `std::map` kept in key order. -/
def mapAssign {V : Type} (key : ModelKey) (v : V) : List (ModelKey × V) → List (ModelKey × V)
  | [] => [(key, v)]
  | p :: rest =>
      if p.1 = key then (key, v) :: rest
      else if keyLt key p.1 then (key, v) :: p :: rest
      else p :: mapAssign key v rest

/-- The call `std::map::erase(key)`. -/
def mapErase {V : Type} (m : List (ModelKey × V)) (key : ModelKey) : List (ModelKey × V) :=
  m.filter (fun p => decide (p.1 ≠ key))

/-- What the server needs of the handle type `H = std::shared_ptr<Model>`.  `Model` is an
abstract class: the server only stores handles and asks them for `getMemoryUsage()`.
`createModel` is the model creation step of `loadModel`, which the source leaves as a
placeholder (see `placeholderEnv`). -/
structure ModelEnv (H : Type) where
  null : H
  getMemoryUsage : H → Nat
  createModel : ModelMetadata → H

/-- One invocation of a registered callback: `callback.second(type, modelName, loaded)`. -/
structure Notification where
  callbackId : Nat
  type : ModelType
  modelName : String
  loaded : Bool
deriving DecidableEq

/-- The members of the class `ModelServer`, with the values the constructor gives them.
`callbacks` holds the ids of `m_callbacks` in map order; `notifications` is the log of the
callback invocations made so far. -/
structure ModelServer (H : Type) where
  modelsDirectory : String := ""
  maxMemoryUsage : Nat := 0
  enableGPU : Bool := false
  isInitialized : Bool := false
  nextCallbackId : Nat := 0
  loadedModels : List (ModelKey × H) := []
  availableModels : List (ModelKey × ModelMetadata) := []
  callbacks : List Nat := []
  notifications : List Notification := []

namespace ModelServer
variable {H : Type}

/-- The loop `for (const auto& callback : m_callbacks) callback.second(type, modelName, loaded)`. -/
def notify (s : ModelServer H) (type : ModelType) (modelName : String) (loaded : Bool) :
    ModelServer H :=
  { s with notifications := s.notifications ++
      s.callbacks.map (fun id => { callbackId := id, type := type, modelName := modelName,
                                   loaded := loaded }) }

/-- `ModelServer::scanForModels`: the source stores a fixed table of placeholder entries, each
under the key made of its type and the empty name; the table is the parameter. -/
def scanForModels (table : List ModelMetadata) (s : ModelServer H) : ModelServer H :=
  { s with availableModels :=
      table.foldl (fun m metadata => mapAssign (metadata.type, "") metadata m) s.availableModels }

/-- `ModelServer::initialize`; `directoryExists` is the outcome of the two
`std::filesystem` tests on `modelsDirectory`. -/
def initializeServer (table : List ModelMetadata) (directoryExists : Bool)
    (s : ModelServer H) (modelsDirectory : String) (maxMemoryUsage : Nat) (enableGPU : Bool) :
    ModelServer H × Bool :=
  if s.isInitialized then (s, false)
  else if !directoryExists then (s, false)
  else
    let s1 := scanForModels table
      { s with modelsDirectory := modelsDirectory, maxMemoryUsage := maxMemoryUsage,
               enableGPU := enableGPU }
    ({ s1 with isInitialized := true }, true)

/-- The body of `ModelServer::getTotalMemoryUsage` with the mutex free, every handle taken
to answer `getMemoryUsage()` (the source dereferences the handle, also when it is null). -/
def getTotalMemoryUsage (env : ModelEnv H) (s : ModelServer H) : Nat :=
  s.loadedModels.foldl (fun total pair => total + env.getMemoryUsage pair.2) 0

/-- `ModelServer::unloadModel`. -/
def unloadModel (s : ModelServer H) (type : ModelType) (modelName : String) :
    ModelServer H × Bool :=
  if !s.isInitialized then (s, false)
  else
    let key : ModelKey := (type, modelName)
    if (mapFind s.loadedModels key).isNone then (s, true)
    else
      (notify { s with loadedModels := mapErase s.loadedModels key } type modelName false, true)

/-- The loop of `unloadModelsIfNeeded` over the copy `loadedModels` of the resident map;
`copySize` is `loadedModels.size()`, which the loop tests at every iteration. -/
def unloadLoop (env : ModelEnv H) (copySize memoryToFree : Nat) :
    List (ModelKey × H) → Nat → ModelServer H → ModelServer H
  | [], _, s => s
  | pair :: rest, freedMemory, s =>
      if copySize = 1 then s
      else
        let modelMemory := env.getMemoryUsage pair.2
        let s1 := (unloadModel s pair.1.1 pair.1.2).1
        let freedMemory1 := freedMemory + modelMemory
        if freedMemory1 ≥ memoryToFree then s1
        else unloadLoop env copySize memoryToFree rest freedMemory1 s1

/-- The body of `ModelServer::unloadModelsIfNeeded` with the locks of the methods it calls
taken to succeed (in the source it is only entered with the mutex held, see
`Locking.unloadModelsIfNeeded`). -/
def unloadModelsIfNeeded (env : ModelEnv H) (s : ModelServer H) (requiredMemory : Nat) :
    ModelServer H :=
  let currentUsage := getTotalMemoryUsage env s
  if currentUsage + requiredMemory ≤ s.maxMemoryUsage then s
  else
    let memoryToFree := currentUsage + requiredMemory - s.maxMemoryUsage
    let loadedModels := s.loadedModels
    unloadLoop env loadedModels.length memoryToFree loadedModels 0 s

/-- The body of `ModelServer::loadModel` with the locks of the methods it calls taken to
succeed (see `Locking.loadModel`).  The handle stored is `env.createModel metadata`; the
source stores a null pointer, which is `placeholderEnv`. -/
def loadModel (env : ModelEnv H) (s : ModelServer H) (type : ModelType) (modelName : String) :
    ModelServer H × Bool :=
  if !s.isInitialized then (s, false)
  else
    let key : ModelKey := (type, modelName)
    if (mapFind s.loadedModels key).isSome then (s, true)
    else
      match mapFind s.availableModels key with
      | none => (s, false)
      | some metadata =>
          let s1 := if s.maxMemoryUsage > 0 then unloadModelsIfNeeded env s metadata.memorySize
                    else s
          let model := env.createModel metadata
          (notify { s1 with loadedModels := mapAssign key model s1.loadedModels }
            type modelName true, true)

/-- The body of `ModelServer::getModel` with the lock of the `loadModel` it calls taken to
succeed (see `Locking.getModel`).  The final `m_loadedModels[key]` finds the key whenever it
is reached (the key was resident, or `loadModel` has just returned true). -/
def getModel (env : ModelEnv H) (s : ModelServer H) (type : ModelType) (modelName : String) :
    ModelServer H × H :=
  if !s.isInitialized then (s, env.null)
  else
    let key : ModelKey := (type, modelName)
    if (mapFind s.loadedModels key).isNone then
      let r := loadModel env s type modelName
      if !r.2 then (r.1, env.null)
      else (r.1, (mapFind r.1.loadedModels key).getD env.null)
    else (s, (mapFind s.loadedModels key).getD env.null)

/-- The body of `ModelServer::setMaxMemoryUsage` with the locks of the methods it calls
taken to succeed (see `Locking.setMaxMemoryUsage`). -/
def setMaxMemoryUsage (env : ModelEnv H) (s : ModelServer H) (maxMemoryUsage : Nat) :
    ModelServer H :=
  let s1 := { s with maxMemoryUsage := maxMemoryUsage }
  if s1.maxMemoryUsage > 0 then
    let currentUsage := getTotalMemoryUsage env s1
    if currentUsage > s1.maxMemoryUsage then unloadModelsIfNeeded env s1 0 else s1
  else s1

/-- `ModelServer::registerModelCallback`; the callback itself is represented by its id. -/
def registerModelCallback (s : ModelServer H) : ModelServer H × Nat :=
  ({ s with callbacks := s.callbacks ++ [s.nextCallbackId],
            nextCallbackId := s.nextCallbackId + 1 }, s.nextCallbackId)

/-- `ModelServer::unregisterModelCallback`. -/
def unregisterModelCallback (s : ModelServer H) (callbackId : Nat) : ModelServer H :=
  { s with callbacks := s.callbacks.filter (fun id => decide (id ≠ callbackId)) }

end ModelServer

/-! ### Handles and the placeholder table -/

/-- A model object, as far as the server observes it: what `getMemoryUsage()` returns. -/
structure Model where
  memoryUsage : Nat
deriving DecidableEq

/-- The model creation step exactly as the source has it: the local
`std::shared_ptr<Model> model;` is never assigned ("Model loading would happen here"), so
the handle that `loadModel` stores is the null pointer. -/
def placeholderEnv {H : Type} (null : H) (getMemoryUsage : H → Nat) : ModelEnv H where
  null := null
  getMemoryUsage := getMemoryUsage
  createModel := fun _ => null

/-- The environment of the source with handles `Option Model`, `none` the null pointer: the
creation step stores the null pointer.  The value given here for `getMemoryUsage` of the null
pointer is immaterial: the source dereferences it, and no theorem depends on the value. -/
def sourceEnv : ModelEnv (Option Model) :=
  placeholderEnv none (fun h => match h with
    | some m => m.memoryUsage
    | none => 0)

/-- First entry of the table of `scanForModels` in `src/ai/model_serving`. -/
def musicVAE : ModelMetadata :=
  { name := "MusicVAE", type := .MusicVAE, version := "1.0.0", memorySize := 100 * 1024 * 1024,
    description := "MusicVAE model for pattern generation", isQuantized := true,
    supportsGPU := true }

/-- Second entry of the table of `scanForModels` in `src/ai/model_serving`. -/
def grooVAE : ModelMetadata :=
  { name := "GrooVAE", type := .GrooVAE, version := "1.0.0", memorySize := 50 * 1024 * 1024,
    description := "GrooVAE model for groove modeling", isQuantized := true,
    supportsGPU := true }

/-- Third entry of the table of `scanForModels` in `src/ai/model_serving`. -/
def melodyRNN : ModelMetadata :=
  { name := "MelodyRNN", type := .MelodyRNN, version := "1.0.0", memorySize := 30 * 1024 * 1024,
    description := "MelodyRNN model for melodic completion", isQuantized := true,
    supportsGPU := true }

/-- The table of `ModelServer::scanForModels` in `src/ai/model_serving/src/ModelServer.cpp`. -/
def placeholderModels : List ModelMetadata := [musicVAE, grooVAE, melodyRNN]

/-! ### Concrete scenarios -/

/-- The server of the unit test `ModelLoading` after `initialize` (limit 1GB). -/
def modelLoadingStart : ModelServer (Option Model) :=
  (ModelServer.initializeServer placeholderModels true {} "../test_models"
    (1024 * 1024 * 1024) false).1

/-! ### Groove, merge and truncation (`src/ai/utils/src/MidiUtils.cpp`) -/

/-- The conversion `static_cast<int>(x)` of a finite float: truncation towards zero. -/
def truncToInt (x : ℚ) : Int :=
  if 0 ≤ x then ⌊x⌋ else ⌈x⌉

namespace Ai
namespace MidiUtils

/-- The body of the loop of `applyGroove`, for one note.  `none` is undefined behaviour of the
source: the integer division by `sequence.totalTicks / grooveLength = 0`, or a negative index
into `groove`. -/
def grooveNote (sequence : MidiSequence) (groove : List ℚ) (note : MidiNote) :
    Option MidiNote :=
  let grooveLength : Int := groove.length
  let stepTicks := sequence.totalTicks.tdiv grooveLength
  if stepTicks = 0 then none
  else
    let grooveStep := (note.startTime.tdiv stepTicks).tmod grooveLength
    if grooveStep < 0 then none
    else
      let offset := groove.getD grooveStep.toNat 0
      let startTime := truncToInt ((note.startTime : ℚ) + offset * (sequence.ticksPerQuarter : ℚ))
      some { note with startTime := max 0 startTime }

/-- The loop of `applyGroove` over the notes, in order. -/
def grooveNotes (sequence : MidiSequence) (groove : List ℚ) : List MidiNote → Option (List MidiNote)
  | [] => some []
  | note :: rest =>
      match grooveNote sequence groove note with
      | none => none
      | some note1 =>
          match grooveNotes sequence groove rest with
          | none => none
          | some rest1 => some (note1 :: rest1)

/-- `MidiUtils::applyGroove` of `src/ai/utils`. -/
def applyGroove (sequence : MidiSequence) (groove : List ℚ) : Option MidiSequence :=
  if groove = [] then some sequence
  else
    match grooveNotes sequence groove sequence.notes with
    | none => none
    | some notes => some { sequence with notes := notes }

/-- The statement `weightedNote.velocity = static_cast<int>(note.velocity * weight)`: the
velocity is converted to `float`, the product is a float product, and the cast truncates. -/
def scaleVelocity (weight : ℚ) (note : MidiNote) : MidiNote :=
  { note with
    velocity := truncToInt (roundToFloat (roundToFloat (note.velocity : ℚ) * weight)) }

/-- One of the two loops of `mergeSequences`: the notes of a sequence, velocity scaled, that
pass the test `weightedNote.velocity > 10`. -/
def audibleNotes (weight : ℚ) (notes : List MidiNote) : List MidiNote :=
  (notes.map (scaleVelocity weight)).filter (fun n => decide (n.velocity > 10))

/-- The order that `std::sort` establishes with the comparator
`a.startTime < b.startTime`: no note starts before its predecessor. -/
def startsNoLater (a b : MidiNote) : Prop := a.startTime ≤ b.startTime

instance startsNoLaterDecidable : DecidableRel startsNoLater := fun a b => Int.decLe a.startTime b.startTime

/-- The call `std::sort(..., a.startTime < b.startTime)`.  `std::sort` fixes its result up to
the order of notes with equal start time; the embedding takes the insertion sort. -/
def sortByStartTime (notes : List MidiNote) : List MidiNote :=
  notes.insertionSort startsNoLater

/-- `MidiUtils::mergeSequences` of `src/ai/utils`; `weight1` is a float. -/
def mergeSequences (sequence1 sequence2 : MidiSequence) (weight1 : ℚ) : MidiSequence :=
  let weight1 := max 0 (min 1 weight1)
  let weight2 := roundToFloat (1 - weight1)
  { notes := sortByStartTime
      (audibleNotes weight1 sequence1.notes ++ audibleNotes weight2 sequence2.notes),
    ticksPerQuarter := sequence1.ticksPerQuarter,
    totalTicks := max sequence1.totalTicks sequence2.totalTicks }

/-- Sum of the products of the components of a list of pairs. -/
def dotProductOf {K : Type} [LinearOrderedField K] (p : List (K × K)) : K :=
  (p.map (fun q => q.1 * q.2)).sum

/-- The shape of the histograms: 128, 16 and 16 bins, none negative. -/
def HistogramsOk (h : Histograms) : Prop :=
  h.pitchHistogram.length = 128 ∧ h.rhythmHistogram.length = 16 ∧
  h.velocityHistogram.length = 16 ∧ (∀ c ∈ h.pitchHistogram, 0 ≤ c) ∧
  (∀ c ∈ h.rhythmHistogram, 0 ≤ c) ∧ (∀ c ∈ h.velocityHistogram, 0 ≤ c)

/-- A bar of 16 ticks holding one note at its start. -/
def shortBar : MidiSequence :=
  { notes := [{ pitch := 60, velocity := 64, startTime := 0, duration := 4,
                isPercussion := false }],
    ticksPerQuarter := 4, totalTicks := 16 }

/-- The default sequence `MidiSequence()`: no notes, 1920 ticks. -/
def emptySequence : MidiSequence := {}

/-- A note whose velocity `2^24 + 1` is not a float. -/
def loudNote : MidiNote := { velocity := 16777217 }

/-- A sequence holding the note `loudNote`. -/
def loudBar : MidiSequence := { notes := [loudNote] }

/-- Ten notes of pitches 60 to 69, all at the start of a bar of 16 ticks. -/
def tenNotes : MidiSequence :=
  { notes := (List.range 10).map (fun (i : Nat) =>
      { pitch := 60 + (i : Int), velocity := 64, startTime := 0, duration := 4,
        isPercussion := false }),
    ticksPerQuarter := 4, totalTicks := 16 }

/-! The feature layer with every float operation rounded to binary32.  A value is
`Option ℚ`: a finite float, or `none` for what the model does not follow (NaN, an infinity,
and everything computed from them). -/

namespace Binary32

/-- Float addition. -/
def fadd : Option ℚ → Option ℚ → Option ℚ
  | some x, some y => some (roundToFloat (x + y))
  | _, _ => none

/-- Float multiplication. -/
def fmul : Option ℚ → Option ℚ → Option ℚ
  | some x, some y => some (roundToFloat (x * y))
  | _, _ => none

/-- Float division: dividing by zero gives NaN or an infinity, `none`. -/
def fdiv : Option ℚ → Option ℚ → Option ℚ
  | some x, some y => if y = 0 then none else some (roundToFloat (x / y))
  | _, _ => none

/-- The call `std::sqrt`: NaN on a negative argument. -/
def fsqrt : Option ℚ → Option ℚ
  | some x => if x < 0 then none else some (sqrtToFloat x)
  | none => none

/-- `MidiUtils::extractSequenceFeatures`: `totalNotes` is the note count converted to
`float`; in `count / totalNotes` the `int` count is converted to `float` and the division is
a float division; in `totalNotes / sequence.totalTicks` the `int` is converted likewise. -/
def extractSequenceFeatures (sequence : MidiSequence) : List (Option ℚ) :=
  let h := histograms sequence
  let totalNotes : Option ℚ := some (roundToFloat (sequence.notes.length : ℚ))
  h.pitchHistogram.map (fun (count : Int) => fdiv (some (roundToFloat (count : ℚ))) totalNotes)
    ++ h.rhythmHistogram.map
        (fun (count : Int) => fdiv (some (roundToFloat (count : ℚ))) totalNotes)
    ++ h.velocityHistogram.map
        (fun (count : Int) => fdiv (some (roundToFloat (count : ℚ))) totalNotes)
    ++ [fdiv totalNotes (some (roundToFloat (sequence.totalTicks : ℚ)))]

/-- One iteration of the loop of `calculateSequenceSimilarity`: three float products and
three float additions. -/
def cosineStep (acc : CosineSums ℚ) (f : Option ℚ × Option ℚ) : CosineSums ℚ :=
  { dotProduct := fadd acc.dotProduct (fmul f.1 f.2),
    norm1 := fadd acc.norm1 (fmul f.1 f.1),
    norm2 := fadd acc.norm2 (fmul f.2 f.2) }

/-- `MidiUtils::calculateSequenceSimilarity`: the loop over the zipped feature vectors, then
`dotProduct / (std::sqrt(norm1) * std::sqrt(norm2))`. -/
def calculateSequenceSimilarity (sequence1 sequence2 : MidiSequence) : Option ℚ :=
  let features1 := extractSequenceFeatures sequence1
  let features2 := extractSequenceFeatures sequence2
  let sums : CosineSums ℚ := (features1.zip features2).foldl cosineStep
    { dotProduct := some 0, norm1 := some 0, norm2 := some 0 }
  fdiv sums.dotProduct (fmul (fsqrt sums.norm1) (fsqrt sums.norm2))

/-- The finite values of the features of a non-empty sequence with `totalTicks ≠ 0` whose
note count and `totalTicks` are floats. -/
def finiteFeatures (sequence : MidiSequence) : List ℚ :=
  let h := histograms sequence
  let totalNotes : ℚ := (sequence.notes.length : ℚ)
  h.pitchHistogram.map (fun (count : Int) => roundToFloat ((count : ℚ) / totalNotes))
    ++ h.rhythmHistogram.map (fun (count : Int) => roundToFloat ((count : ℚ) / totalNotes))
    ++ h.velocityHistogram.map (fun (count : Int) => roundToFloat ((count : ℚ) / totalNotes))
    ++ [roundToFloat (totalNotes / (sequence.totalTicks : ℚ))]

/-- The sum of a list of floats accumulated in a `float`, left to right from `0.0f`, as a loop
`sum += x` computes it. -/
def floatSum (values : List ℚ) : ℚ :=
  values.foldl (fun acc x => roundToFloat (acc + x)) 0

end Binary32

end MidiUtils
end Ai

/-! ### Model server: all public operations -/

/-- `ModelServer::enableGPU` of `src/ai/model_serving` (`enableGPU` itself names the member
`m_enableGPU` in the structure). -/
def ModelServer.enableGPUMode {H : Type} (s : ModelServer H) (enable : Bool) : ModelServer H :=
  { s with enableGPU := enable }

/-- An upper bound of the states a server can be in: the constructed server, and what the
bodies of the public operations that change the state make of a state, with arbitrary
arguments (`initialize` also with either outcome of the directory test), every nested lock
taken to succeed and for an arbitrary creation step.  The states reached through calls that
return are among them (`Locking.publicReachable_of_completed`). -/
inductive PublicReachable {H : Type} (env : ModelEnv H) (table : List ModelMetadata) :
    ModelServer H → Prop
  | construct : PublicReachable env table {}
  | init (s : ModelServer H) (directoryExists : Bool) (dir : String) (maxMemoryUsage : Nat)
      (gpu : Bool) : PublicReachable env table s →
      PublicReachable env table
        (ModelServer.initializeServer table directoryExists s dir maxMemoryUsage gpu).1
  | load (s : ModelServer H) (type : ModelType) (modelName : String) :
      PublicReachable env table s →
      PublicReachable env table (ModelServer.loadModel env s type modelName).1
  | get (s : ModelServer H) (type : ModelType) (modelName : String) :
      PublicReachable env table s →
      PublicReachable env table (ModelServer.getModel env s type modelName).1
  | unload (s : ModelServer H) (type : ModelType) (modelName : String) :
      PublicReachable env table s →
      PublicReachable env table (ModelServer.unloadModel s type modelName).1
  | setMax (s : ModelServer H) (maxMemoryUsage : Nat) :
      PublicReachable env table s →
      PublicReachable env table (ModelServer.setMaxMemoryUsage env s maxMemoryUsage)
  | gpu (s : ModelServer H) (enable : Bool) :
      PublicReachable env table s → PublicReachable env table (s.enableGPUMode enable)
  | register (s : ModelServer H) :
      PublicReachable env table s → PublicReachable env table s.registerModelCallback.1
  | unregister (s : ModelServer H) (callbackId : Nat) :
      PublicReachable env table s →
      PublicReachable env table (s.unregisterModelCallback callbackId)

/-- The resident map has one entry per key, every resident key is a catalog key, and a server
that is not initialized has no resident model. -/
def Coherent {H : Type} (s : ModelServer H) : Prop :=
  (s.loadedModels.map Prod.fst).Nodup ∧
  (∀ key ∈ s.loadedModels.map Prod.fst, mapFind s.availableModels key ≠ none) ∧
  (s.isInitialized = false → s.loadedModels = [])

/-! ### Records of the tensor and notes off the grid (`src/implementation/utils/MidiUtils.cpp`) -/

namespace Impl
namespace MidiUtils

/-- The note that `tensorToSequence` makes of record `i` of a tensor, that is of the values
`tensor[5 * i]` to `tensor[5 * i + 4]`, once `totalTicks` is known. -/
def recordNote (tensor : List ℚ) (totalTicks : Int) (i : Nat) : MidiNote :=
  { pitch := roundHalfAway (denormalizeValue (tensor.getD (5 * i) 0) 0 127),
    velocity := roundHalfAway (denormalizeValue (tensor.getD (5 * i + 1) 0) 0 127),
    startTime := roundHalfAway (tensor.getD (5 * i + 2) 0 * (totalTicks : ℚ)),
    duration := max (roundHalfAway (tensor.getD (5 * i + 3) 0 * (totalTicks : ℚ))) 1,
    isPercussion := decide (tensor.getD (5 * i + 4) 0 > 1 / 2) }

/-- A note off the grid of 8 ticks: it starts at tick 3 and lasts 9 ticks. -/
def offGridNote : MidiNote := { startTime := 3, duration := 9 }

/-- A sequence holding the note `offGridNote`. -/
def offGridBar : MidiSequence := { notes := [offGridNote] }

end MidiUtils
end Impl

/-! ### Temperature of the models and swing of the groove effect (`src/ai/model_serving`,
`src/ai/plugins`) -/

namespace Ai

/-- The class `MusicVAEModel` of `src/ai/model_serving`, as far as its temperature accessors
see it: the member `m_temperature`, which the constructor sets to `1.0f`. -/
structure MusicVAEModel where
  temperature : ℚ := 1
deriving DecidableEq

/-- `MusicVAEModel::setTemperature`; the float literal `0.0001f` is taken as `1 / 10000`. -/
def MusicVAEModel.setTemperature (m : MusicVAEModel) (temperature : ℚ) : MusicVAEModel :=
  { m with temperature := max (1 / 10000) (min 2 temperature) }

/-- `MusicVAEModel::getTemperature`. -/
def MusicVAEModel.getTemperature (m : MusicVAEModel) : ℚ := m.temperature

/-- The class `GrooVAEModel` of `src/ai/model_serving`, as far as its parameter accessors see
it: the members `m_temperature` and `m_humanize`, set to `1.0f` and `0.5f` by the
constructor. -/
structure GrooVAEModel where
  temperature : ℚ := 1
  humanize : ℚ := 1 / 2
deriving DecidableEq

/-- `GrooVAEModel::setTemperature`; the float literal `0.0001f` is taken as `1 / 10000`. -/
def GrooVAEModel.setTemperature (m : GrooVAEModel) (temperature : ℚ) : GrooVAEModel :=
  { m with temperature := max (1 / 10000) (min 2 temperature) }

/-- `GrooVAEModel::getTemperature`. -/
def GrooVAEModel.getTemperature (m : GrooVAEModel) : ℚ := m.temperature

namespace GrooVAEEffect

/-- The struct `MidiNote` as `GrooVAEEffect.cpp` uses it: the times are floats, in seconds, and
a note has an end time instead of a duration. -/
structure MidiNote where
  pitch : Int
  velocity : Int
  startTime : ℚ
  endTime : ℚ
deriving DecidableEq

end GrooVAEEffect
end Ai

/-! ### Model server: the listing of the resident models and the mutex -/

namespace ModelServer
variable {H : Type}

/-- The loop of `getLoadedModels` over the resident map: for each resident key it pushes
`m_availableModels.at(key)`.  `std::map::at` throws `std::out_of_range` for a key that is not
in the map; the exception leaves `getLoadedModels`: `none`. -/
def lookupLoaded (availableModels : List (ModelKey × ModelMetadata)) :
    List (ModelKey × H) → Option (List ModelMetadata)
  | [] => some []
  | pair :: rest =>
      match mapFind availableModels pair.1 with
      | none => none
      | some metadata =>
          match lookupLoaded availableModels rest with
          | none => none
          | some models => some (metadata :: models)

/-- `ModelServer::getLoadedModels`; `none` is the exception of `m_availableModels.at(key)`. -/
def getLoadedModels (s : ModelServer H) : Option (List ModelMetadata) :=
  lookupLoaded s.availableModels s.loadedModels

/-- The loop of `ModelServerTest::TearDown` (`src/tests/unit/ModelServerTest.cpp`) over the
vector `getLoadedModels()` returned: `unloadModel(model.type, model.name)` for each entry. -/
def unloadReported (s : ModelServer H) (loadedModels : List ModelMetadata) : ModelServer H :=
  loadedModels.foldl (fun server model => (unloadModel server model.type model.name).1) s

/-- The keys of the catalog carry the empty name and the catalog entries a name that is not
empty, as in the table of `scanForModels`. -/
def CatalogKeysUnnamed (s : ModelServer H) : Prop :=
  ∀ p ∈ s.availableModels, p.1.2 = "" ∧ p.2.name ≠ ""

end ModelServer

/-- A server initialized without a memory limit (`maxMemoryUsage = 0`), so that `loadModel`
does not reach `unloadModelsIfNeeded`. -/
def unlimitedStart : ModelServer (Option Model) :=
  (ModelServer.initializeServer placeholderModels true {} "../test_models" 0 false).1

/-- The server `unlimitedStart` after `loadModel(ModelType::MusicVAE, "")`. -/
def unlimitedOne : ModelServer (Option Model) :=
  (ModelServer.loadModel sourceEnv unlimitedStart .MusicVAE "").1

/-- The server `unlimitedOne` after `loadModel(ModelType::GrooVAE, "")`. -/
def unlimitedTwo : ModelServer (Option Model) :=
  (ModelServer.loadModel sourceEnv unlimitedOne .GrooVAE "").1

namespace ModelServer
namespace Locking
variable {H : Type}

/-! The methods of the server with the mutex `m_mutex` made explicit.  `held` is the state of
the mutex when the method is entered: `true` when the calling thread has locked it.  A
`std::lock_guard` locks in its constructor and unlocks when the method returns, so a method
that returns leaves the mutex as it found it, and the calls a method makes after its
`lock_guard` statement are entered with the mutex held.  The result `none` is the call not
completing: `m_mutex` is a `std::mutex`, which is not recursive, and locking it again from the
thread that holds it is undefined behaviour (a deadlock in practice). -/

/-- The statement `std::lock_guard<std::mutex> lock(m_mutex);`. -/
def lockGuard (held : Bool) : Option Unit :=
  if held then none else some ()

/-- `ModelServer::getTotalMemoryUsage`, which starts with a `lock_guard`.  The loop calls
`getMemoryUsage()` through every stored handle; on a null handle that is a null dereference
in the source, and the theorems evaluate this function only with the mutex held (no result) or
on an empty resident map. -/
def getTotalMemoryUsage (env : ModelEnv H) (held : Bool) (s : ModelServer H) : Option Nat :=
  match lockGuard held with
  | none => none
  | some _ => some (s.loadedModels.foldl (fun total pair => total + env.getMemoryUsage pair.2) 0)

/-- `ModelServer::unloadModel`, which starts with a `lock_guard`. -/
def unloadModel (held : Bool) (s : ModelServer H) (type : ModelType) (modelName : String) :
    Option (ModelServer H × Bool) :=
  match lockGuard held with
  | none => none
  | some _ =>
      if !s.isInitialized then some (s, false)
      else
        let key : ModelKey := (type, modelName)
        if (mapFind s.loadedModels key).isNone then some (s, true)
        else
          some (notify { s with loadedModels := mapErase s.loadedModels key } type modelName
            false, true)

/-- The loop of `unloadModelsIfNeeded`, which calls `unloadModel`. -/
def unloadLoop (env : ModelEnv H) (held : Bool) (copySize memoryToFree : Nat) :
    List (ModelKey × H) → Nat → ModelServer H → Option (ModelServer H)
  | [], _, s => some s
  | pair :: rest, freedMemory, s =>
      if copySize = 1 then some s
      else
        let modelMemory := env.getMemoryUsage pair.2
        match unloadModel held s pair.1.1 pair.1.2 with
        | none => none
        | some r =>
            let freedMemory1 := freedMemory + modelMemory
            if freedMemory1 ≥ memoryToFree then some r.1
            else unloadLoop env held copySize memoryToFree rest freedMemory1 r.1

/-- `ModelServer::unloadModelsIfNeeded`: a private method without a `lock_guard` of its own;
it calls `getTotalMemoryUsage` and, in its loop, `unloadModel`. -/
def unloadModelsIfNeeded (env : ModelEnv H) (held : Bool) (s : ModelServer H)
    (requiredMemory : Nat) : Option (ModelServer H) :=
  match getTotalMemoryUsage env held s with
  | none => none
  | some currentUsage =>
      if currentUsage + requiredMemory ≤ s.maxMemoryUsage then some s
      else
        let memoryToFree := currentUsage + requiredMemory - s.maxMemoryUsage
        let loadedModels := s.loadedModels
        unloadLoop env held loadedModels.length memoryToFree loadedModels 0 s

/-- `ModelServer::loadModel`, which starts with a `lock_guard` and calls
`unloadModelsIfNeeded` while it holds the mutex. -/
def loadModel (env : ModelEnv H) (held : Bool) (s : ModelServer H) (type : ModelType)
    (modelName : String) : Option (ModelServer H × Bool) :=
  match lockGuard held with
  | none => none
  | some _ =>
      if !s.isInitialized then some (s, false)
      else
        let key : ModelKey := (type, modelName)
        if (mapFind s.loadedModels key).isSome then some (s, true)
        else
          match mapFind s.availableModels key with
          | none => some (s, false)
          | some metadata =>
              let freed := if s.maxMemoryUsage > 0
                then unloadModelsIfNeeded env true s metadata.memorySize
                else some s
              match freed with
              | none => none
              | some s1 =>
                  let model := env.createModel metadata
                  some (notify { s1 with loadedModels := mapAssign key model s1.loadedModels }
                    type modelName true, true)

/-- `ModelServer::getModel`, which starts with a `lock_guard` and calls `loadModel` while it
holds the mutex. -/
def getModel (env : ModelEnv H) (held : Bool) (s : ModelServer H) (type : ModelType)
    (modelName : String) : Option (ModelServer H × H) :=
  match lockGuard held with
  | none => none
  | some _ =>
      if !s.isInitialized then some (s, env.null)
      else
        let key : ModelKey := (type, modelName)
        if (mapFind s.loadedModels key).isNone then
          match loadModel env true s type modelName with
          | none => none
          | some r =>
              if !r.2 then some (r.1, env.null)
              else some (r.1, (mapFind r.1.loadedModels key).getD env.null)
        else some (s, (mapFind s.loadedModels key).getD env.null)

/-- `ModelServer::setMaxMemoryUsage`, which starts with a `lock_guard` and calls
`getTotalMemoryUsage` and `unloadModelsIfNeeded` while it holds the mutex. -/
def setMaxMemoryUsage (env : ModelEnv H) (held : Bool) (s : ModelServer H)
    (maxMemoryUsage : Nat) : Option (ModelServer H) :=
  match lockGuard held with
  | none => none
  | some _ =>
      let s1 := { s with maxMemoryUsage := maxMemoryUsage }
      if s1.maxMemoryUsage > 0 then
        match getTotalMemoryUsage env true s1 with
        | none => none
        | some currentUsage =>
            if currentUsage > s1.maxMemoryUsage then unloadModelsIfNeeded env true s1 0
            else some s1
      else some s1

/-- The states the server is in after calls that return, from the constructed server on.
Each public method is entered with the mutex free.  `initialize` takes no lock; `enableGPU`,
`registerModelCallback` and `unregisterModelCallback` lock and call nothing, so they return;
`loadModel`, `getModel`, `unloadModel` and `setMaxMemoryUsage` contribute the calls that
return (a result `some r`). -/
inductive Completed (env : ModelEnv H) (table : List ModelMetadata) : ModelServer H → Prop
  | construct : Completed env table {}
  | init (s : ModelServer H) (directoryExists : Bool) (dir : String) (maxMemoryUsage : Nat)
      (gpu : Bool) : Completed env table s →
      Completed env table
        (ModelServer.initializeServer table directoryExists s dir maxMemoryUsage gpu).1
  | load (s : ModelServer H) (type : ModelType) (modelName : String)
      (r : ModelServer H × Bool) : Completed env table s →
      loadModel env false s type modelName = some r → Completed env table r.1
  | get (s : ModelServer H) (type : ModelType) (modelName : String)
      (r : ModelServer H × H) : Completed env table s →
      getModel env false s type modelName = some r → Completed env table r.1
  | unload (s : ModelServer H) (type : ModelType) (modelName : String)
      (r : ModelServer H × Bool) : Completed env table s →
      unloadModel false s type modelName = some r → Completed env table r.1
  | setMax (s : ModelServer H) (maxMemoryUsage : Nat) (r : ModelServer H) :
      Completed env table s →
      setMaxMemoryUsage env false s maxMemoryUsage = some r → Completed env table r
  | gpu (s : ModelServer H) (enable : Bool) :
      Completed env table s → Completed env table (s.enableGPUMode enable)
  | register (s : ModelServer H) :
      Completed env table s → Completed env table s.registerModelCallback.1
  | unregister (s : ModelServer H) (callbackId : Nat) :
      Completed env table s → Completed env table (s.unregisterModelCallback callbackId)

end Locking
end ModelServer

/-- A server initialized with a limit of 120MB: the state after `initialize`, before any
`loadModel`. -/
def limitedStart : ModelServer (Option Model) :=
  (ModelServer.initializeServer placeholderModels true {} "../test_models" (120 * 1024 * 1024)
    false).1

/-- The state of `limitedStart` with the key of GrooVAE (50MB) as the one resident key, with the
null handle the creation step stores; loading MusicVAE (100MB) would take the two above the
limit.  It is a value of the state type: under a positive limit no call that returns makes a
model resident, so no sequence of calls puts the server in it. -/
def singleResident : ModelServer (Option Model) :=
  { limitedStart with loadedModels := [((.GrooVAE, ""), none)] }

/-- A server initialized with a limit of 150MB, the size of MusicVAE (100MB) and GrooVAE (50MB)
together: the state after `initialize`, before any `loadModel`. -/
def evictionStart : ModelServer (Option Model) :=
  (ModelServer.initializeServer placeholderModels true {} "../test_models" (150 * 1024 * 1024)
    false).1

/-- The state of `evictionStart` with the keys of MusicVAE and GrooVAE resident, with the null
handle the creation step stores: the two fill the limit, and loading MelodyRNN (30MB) would
have to evict.  It is a value of the state type: under a positive limit no call that returns
makes a model resident, so no sequence of calls puts the server in it. -/
def twoResident : ModelServer (Option Model) :=
  { evictionStart with loadedModels := [((.MusicVAE, ""), none), ((.GrooVAE, ""), none)] }

/-! ## Part 2: theorems -/

/-! ### Rounding and the codec -/

theorem roundHalfAway_intCast (p : Int) : roundHalfAway (p : ℚ) = p := by
  unfold roundHalfAway
  split
  · rw [Int.floor_eq_iff]; constructor <;> linarith
  · rw [Int.ceil_eq_iff]; constructor <;> linarith

theorem roundHalfAway_eq (x : ℚ) (n : Int) (h : (n : ℚ) = x) : roundHalfAway x = n := by
  rw [← h]; exact roundHalfAway_intCast n

/-! ### Binary32 rounding -/

theorem roundHalfEven_intCast (n : Int) : roundHalfEven (n : ℚ) = n := by
  simp [roundHalfEven]

theorem abs_roundHalfEven_sub_le (x : ℚ) : |(roundHalfEven x : ℚ) - x| ≤ 1 / 2 := by
  have h1 := Int.floor_le x
  have h2 := Int.lt_floor_add_one x
  unfold roundHalfEven
  dsimp only
  split_ifs with a b c
  · rw [abs_le]; constructor <;> linarith
  · push_cast; rw [abs_le]; constructor <;> linarith
  · rw [abs_le]; constructor <;> linarith
  · push_cast; rw [abs_le]; constructor <;> linarith

theorem roundHalfEven_eq_of_abs_lt (x : ℚ) (m : Int) (h : |x - m| < 1 / 2) :
    roundHalfEven x = m := by
  rw [abs_lt] at h
  unfold roundHalfEven
  dsimp only
  by_cases hm : (m : ℚ) ≤ x
  · have hf : ⌊x⌋ = m := by
      rw [Int.floor_eq_iff]; constructor <;> linarith
    rw [hf]
    have : x - m < 1 / 2 := by linarith
    simp only [this, ↓reduceIte]
  · have hf : ⌊x⌋ = m - 1 := by
      rw [Int.floor_eq_iff]; push_cast; constructor <;> linarith
    rw [hf]
    push_cast
    have h1 : ¬ (x - (m - 1) < 1 / 2) := by linarith
    have h2 : 1 / 2 < x - (m - 1) := by linarith
    simp only [h1, h2, ↓reduceIte]
    ring

theorem roundHalfEven_half_of_even (m : Int) (hm : m % 2 = 0) :
    roundHalfEven ((m : ℚ) + 1 / 2) = m := by
  have hf : ⌊(m : ℚ) + 1 / 2⌋ = m := by
    rw [Int.floor_eq_iff]; constructor <;> linarith
  unfold roundHalfEven
  dsimp only
  rw [hf]
  norm_num [hm]

theorem ulpExponent_eq (x : ℚ) (e : Int) (h1 : (2 : ℚ) ^ e ≤ |x|) (h2 : |x| < 2 ^ (e + 1))
    (he : -126 ≤ e) : ulpExponent x = e - 23 := by
  have hpos : 0 < |x| := lt_of_lt_of_le (by positivity) h1
  have hl : Int.log 2 |x| = e := by
    apply le_antisymm
    · have := (Int.lt_zpow_iff_log_lt (b := 2) (by norm_num) hpos).mp (by exact_mod_cast h2)
      omega
    · exact (Int.zpow_le_iff_le_log (b := 2) (by norm_num) hpos).mp (by exact_mod_cast h1)
  simp [ulpExponent, hl, he]

theorem roundToFloat_eq (x : ℚ) (e : Int) (h1 : (2 : ℚ) ^ e ≤ |x|) (h2 : |x| < 2 ^ (e + 1))
    (he : -126 ≤ e) :
    roundToFloat x = roundHalfEven (x / 2 ^ (e - 23)) * 2 ^ (e - 23) := by
  simp only [roundToFloat, ulpExponent_eq x e h1 h2 he]

theorem roundToFloat_zero : roundToFloat 0 = 0 := by
  simp [roundToFloat, roundHalfEven]

theorem roundToFloat_of_multiple (x : ℚ) (k : Int) (h : x = k * 2 ^ ulpExponent x) :
    roundToFloat x = x := by
  have hpos : (2 : ℚ) ^ ulpExponent x ≠ 0 := by positivity
  have hk : x / 2 ^ ulpExponent x = k := by
    rw [div_eq_iff hpos]; exact h
  rw [roundToFloat, hk, roundHalfEven_intCast, ← h]

theorem abs_roundToFloat_sub_le (x : ℚ) (h : (2 : ℚ) ^ (-126 : Int) ≤ |x|) :
    |roundToFloat x - x| ≤ |x| / 2 ^ 24 := by
  have hpos : 0 < |x| := lt_of_lt_of_le (by positivity) h
  have hlog : -126 ≤ Int.log 2 |x| :=
    (Int.zpow_le_iff_le_log (b := 2) (by norm_num) hpos).mp (by exact_mod_cast h)
  have hle : (2 : ℚ) ^ Int.log 2 |x| ≤ |x| := by
    have := Int.zpow_log_le_self (b := 2) (r := |x|) (by norm_num) hpos
    exact_mod_cast this
  have hu : ulpExponent x = Int.log 2 |x| - 23 := by simp [ulpExponent, hlog]
  have hupos : (0 : ℚ) < 2 ^ ulpExponent x := by positivity
  have hr := abs_roundHalfEven_sub_le (x / 2 ^ ulpExponent x)
  have heq : roundToFloat x - x
      = ((roundHalfEven (x / 2 ^ ulpExponent x) : ℚ) - x / 2 ^ ulpExponent x)
        * 2 ^ ulpExponent x := by
    rw [roundToFloat, sub_mul, div_mul_cancel₀ _ hupos.ne.symm]
  rw [heq, abs_mul, abs_of_pos hupos]
  have h2 : (2 : ℚ) ^ ulpExponent x = 2 ^ Int.log 2 |x| / 2 ^ 23 := by
    rw [hu, zpow_sub₀ (by norm_num : (2 : ℚ) ≠ 0)]; norm_num
  calc |(roundHalfEven (x / 2 ^ ulpExponent x) : ℚ) - x / 2 ^ ulpExponent x|
        * 2 ^ ulpExponent x
      ≤ 1 / 2 * 2 ^ ulpExponent x := mul_le_mul_of_nonneg_right hr hupos.le
    _ = 2 ^ Int.log 2 |x| / 2 ^ 24 := by rw [h2]; ring
    _ ≤ |x| / 2 ^ 24 := div_le_div_of_nonneg_right hle (by positivity)

theorem roundToFloat_intCast (n : Int) (h : |n| ≤ 2 ^ 24) : roundToFloat (n : ℚ) = n := by
  by_cases h0 : n = 0
  · subst h0; simpa using roundToFloat_zero
  have hpos : (0 : ℚ) < |(n : ℚ)| := by
    have : (n : ℚ) ≠ 0 := by exact_mod_cast h0
    positivity
  have habs : |(n : ℚ)| = ((|n| : Int) : ℚ) := by push_cast; rfl
  have h1 : (1 : ℚ) ≤ |(n : ℚ)| := by
    rw [habs]
    have : 1 ≤ |n| := Int.one_le_abs h0
    exact_mod_cast this
  have hlo : 0 ≤ Int.log 2 |(n : ℚ)| :=
    (Int.zpow_le_iff_le_log (b := 2) (by norm_num) hpos).mp (by simpa using h1)
  have hhi : Int.log 2 |(n : ℚ)| < 25 := by
    apply (Int.lt_zpow_iff_log_lt (b := 2) (by norm_num) hpos).mp
    rw [habs]
    have : ((|n| : Int) : ℚ) ≤ 2 ^ 24 := by exact_mod_cast h
    calc ((|n| : Int) : ℚ) ≤ 2 ^ 24 := this
      _ < ((2 : ℕ) : ℚ) ^ (25 : Int) := by norm_num
  have hu : ulpExponent (n : ℚ) = Int.log 2 |(n : ℚ)| - 23 := by
    simp only [ulpExponent]; rw [max_eq_left (by omega)]
  by_cases h24 : Int.log 2 |(n : ℚ)| = 24
  · have hge : (2 : ℚ) ^ (24 : Int) ≤ |(n : ℚ)| := by
      have := Int.zpow_log_le_self (b := 2) (r := |(n : ℚ)|) (by norm_num) hpos
      rw [h24] at this
      exact_mod_cast this
    have hge' : (2 : Int) ^ 24 ≤ |n| := by
      rw [habs] at hge
      have h3 : ((2 ^ 24 : Int) : ℚ) ≤ ((|n| : Int) : ℚ) := by
        norm_num at hge ⊢
        exact hge
      exact_mod_cast h3
    have hn : |n| = 2 ^ 24 := le_antisymm h hge'
    apply roundToFloat_of_multiple _ (n / 2)
    rw [hu, h24]
    rcases abs_eq (by norm_num : (0 : Int) ≤ 2 ^ 24) |>.mp hn with hn1 | hn1
    · subst hn1; norm_num
    · subst hn1; norm_num
  · have hl : Int.log 2 |(n : ℚ)| ≤ 23 := by omega
    obtain ⟨k, hk⟩ : ∃ k : ℕ, (k : Int) = 23 - Int.log 2 |(n : ℚ)| :=
      ⟨(23 - Int.log 2 |(n : ℚ)|).toNat, Int.toNat_of_nonneg (by omega)⟩
    apply roundToFloat_of_multiple _ (n * 2 ^ k)
    rw [hu]
    have : Int.log 2 |(n : ℚ)| - 23 = -(k : Int) := by omega
    rw [this, zpow_neg, zpow_natCast]
    push_cast
    field_simp

theorem roundToFloat_eval (x : ℚ) (e m : Int) (h1 : (2 : ℚ) ^ e ≤ |x|)
    (h2 : |x| < 2 ^ (e + 1)) (he : -126 ≤ e) (hm : |x / 2 ^ (e - 23) - m| < 1 / 2) :
    roundToFloat x = m * 2 ^ (e - 23) := by
  rw [roundToFloat_eq x e h1 h2 he, roundHalfEven_eq_of_abs_lt _ m hm]

namespace Impl
namespace MidiUtils

theorem denormalize_normalize (p : ℚ) :
    denormalizeValue (normalizeValue p 0 127) 0 127 = p := by
  unfold denormalizeValue normalizeValue
  norm_num

theorem decodeRecords_flatMap (tn : ℚ) (notes acc : List MidiNote) (m : ℚ) :
    (decodeRecords (notes.flatMap (noteRecord tn)) acc m).1 = acc ++ notes.map staticPart := by
  induction notes generalizing acc m with
  | nil => simp [decodeRecords]
  | cons n rest ih =>
    rw [List.flatMap_cons]
    simp only [noteRecord, List.cons_append, List.nil_append]
    rw [decodeRecords, ih]
    simp only [List.map_cons]
    simp only [denormalize_normalize, roundHalfAway_intCast, List.append_assoc,
      List.singleton_append]
    congr 2
    cases n with
    | mk p v s d b =>
      cases b
      · simp [staticPart]
      · simp [staticPart]; norm_num

/-- Claim C1.  For every sequence `s` with `totalTicks > 0` whose notes have pitch and
velocity in `[0, 127]`, `sequenceToTensor s` is a tensor `t`, `tensorToSequence t
s.ticksPerQuarter` has as many notes as `s`, and its `i`-th note has the pitch, the velocity
and the percussion flag of the `i`-th note of `s`. -/
theorem roundtrip_preserves_pitch_velocity_percussion (s : MidiSequence)
    (hT : 0 < s.totalTicks)
    (_hr : ∀ n ∈ s.notes, 0 ≤ n.pitch ∧ n.pitch ≤ 127 ∧ 0 ≤ n.velocity ∧ n.velocity ≤ 127) :
    ∃ t, sequenceToTensor s = some t ∧
      (tensorToSequence t s.ticksPerQuarter).notes.length = s.notes.length ∧
      ∀ (i : Nat) (n : MidiNote), s.notes[i]? = some n →
        ∃ m, (tensorToSequence t s.ticksPerQuarter).notes[i]? = some m ∧
          m.pitch = n.pitch ∧ m.velocity = n.velocity ∧ m.isPercussion = n.isPercussion := by
  refine ⟨_, by simp [sequenceToTensor, hT.ne.symm]; rfl, ?_, ?_⟩
  · simp [tensorToSequence, decodeRecords_flatMap]
  · intro i n hn
    simp [tensorToSequence, decodeRecords_flatMap, List.getElem?_enum, hn, staticPart]

/-- Claim C1 at the sequence `quarterNoteBar`. -/
theorem roundtrip_preserves_pitch_velocity_percussion_witness :
    0 < quarterNoteBar.totalTicks ∧
    (∀ n ∈ quarterNoteBar.notes,
      0 ≤ n.pitch ∧ n.pitch ≤ 127 ∧ 0 ≤ n.velocity ∧ n.velocity ≤ 127) ∧
    ∃ t, sequenceToTensor quarterNoteBar = some t ∧
      (tensorToSequence t quarterNoteBar.ticksPerQuarter).notes.length
        = quarterNoteBar.notes.length ∧
      ∀ (i : Nat) (n : MidiNote), quarterNoteBar.notes[i]? = some n →
        ∃ m, (tensorToSequence t quarterNoteBar.ticksPerQuarter).notes[i]? = some m ∧
          m.pitch = n.pitch ∧ m.velocity = n.velocity ∧ m.isPercussion = n.isPercussion :=
  ⟨by decide, by decide,
    roundtrip_preserves_pitch_velocity_percussion quarterNoteBar (by decide) (by decide)⟩

/-- Claim C2 fails on `quarterNoteBar` (one bar of 2048 ticks, 512 ticks per quarter, one
note of 512 ticks): the tensor is `[60/127, 64/127, 0, 1/4, 0]`, the decoder derives
`totalTicks = ceil (1/4 * 4 * 512) = 512` instead of 2048, and the decoded note lasts 128
ticks instead of 512. -/
theorem roundtrip_shrinks_duration :
    sequenceToTensor quarterNoteBar = some [60 / 127, 64 / 127, 0, 1 / 4, 0] ∧
    tensorToSequence [60 / 127, 64 / 127, 0, 1 / 4, 0] quarterNoteBar.ticksPerQuarter =
      { notes := [{ pitch := 60, velocity := 64, startTime := 0, duration := 128,
                    isPercussion := false }],
        ticksPerQuarter := 512, totalTicks := 512 } := by
  constructor
  · simp [sequenceToTensor, quarterNoteBar, noteRecord, normalizeValue]
    norm_num
  · have hT : (⌈(max (0 : ℚ) (0 + 1 / 4)) * 4 * ((512 : Int) : ℚ)⌉ : Int) = 512 := by
      rw [Int.ceil_eq_iff]; norm_num
    simp only [tensorToSequence, decodeRecords, quarterNoteBar, hT]
    simp [List.enum, List.enumFrom, denormalizeValue]
    refine ⟨roundHalfAway_eq _ 60 (by norm_num), roundHalfAway_eq _ 64 (by norm_num),
      roundHalfAway_eq _ 0 (by norm_num), ?_⟩
    rw [roundHalfAway_eq _ 128 (by norm_num)]; rfl

end MidiUtils
end Impl

namespace Impl
namespace MidiUtils

/-- Claim C8 fails on the tensors `[0, 0, 1, 1, 0]` and `[0, 0, 1, 0, 0]` with 480 ticks per
quarter.  In both cases `totalTicks` is `ceil (M * 4 * 480)` as claimed (3840 for `M = 2`,
1920 for `M = 1`), but the decoded note ends at `3840 + 3840 = 7680 > 3840`, respectively at
`1920 + 1 = 1921 > 1920`. -/
theorem decoded_note_exceeds_totalTicks :
    tensorToSequence [0, 0, 1, 1, 0] 480 =
      { notes := [{ pitch := 0, velocity := 0, startTime := 3840, duration := 3840,
                    isPercussion := false }],
        ticksPerQuarter := 480, totalTicks := 3840 } ∧
    tensorToSequence [0, 0, 1, 0, 0] 480 =
      { notes := [{ pitch := 0, velocity := 0, startTime := 1920, duration := 1,
                    isPercussion := false }],
        ticksPerQuarter := 480, totalTicks := 1920 } := by
  constructor
  · have hT : (⌈(max (0 : ℚ) (1 + 1)) * 4 * ((480 : Int) : ℚ)⌉ : Int) = 3840 := by
      rw [Int.ceil_eq_iff]; norm_num
    simp only [tensorToSequence, decodeRecords, hT]
    simp [List.enum, List.enumFrom, denormalizeValue]
    refine ⟨roundHalfAway_eq _ 0 (by norm_num), roundHalfAway_eq _ 3840 (by norm_num), ?_⟩
    rw [roundHalfAway_eq _ 3840 (by norm_num)]; rfl
  · have hT : (⌈(max (0 : ℚ) (1 + 0)) * 4 * ((480 : Int) : ℚ)⌉ : Int) = 1920 := by
      rw [Int.ceil_eq_iff]; norm_num
    simp only [tensorToSequence, decodeRecords, hT]
    simp [List.enum, List.enumFrom, denormalizeValue]
    refine ⟨roundHalfAway_eq _ 0 (by norm_num), roundHalfAway_eq _ 1920 (by norm_num), ?_⟩
    rw [roundHalfAway_eq _ 0 (by norm_num)]; decide

theorem findClosestGridPoint_multiple (time gridSize : Int) (ht : 0 ≤ time)
    (hg : 0 < gridSize) :
    (findClosestGridPoint time gridSize).tmod gridSize = 0 ∧
      0 ≤ findClosestGridPoint time gridSize := by
  unfold findClosestGridPoint
  have h1 : time.tmod gridSize = time % gridSize := Int.tmod_eq_emod ht hg.le
  have h2 := Int.emod_nonneg time hg.ne.symm
  have h3 := Int.emod_lt_of_pos time hg
  have h4 := Int.emod_add_ediv time gridSize
  have h6 : 0 ≤ gridSize * (time / gridSize) := mul_nonneg hg.le (Int.ediv_nonneg ht hg.le)
  simp only [h1]
  split
  · have h5 : 0 ≤ time - time % gridSize := by omega
    refine ⟨?_, h5⟩
    rw [Int.tmod_eq_emod h5 hg.le]
    have : time - time % gridSize = gridSize * (time / gridSize) := by omega
    rw [this]; simp
  · have h5 : 0 ≤ time + (gridSize - time % gridSize) := by omega
    refine ⟨?_, h5⟩
    rw [Int.tmod_eq_emod h5 hg.le]
    have : time + (gridSize - time % gridSize) = gridSize * (time / gridSize + 1) := by
      rw [mul_add]; omega
    rw [this]; simp

/-- Claim C6.  For every `gridSize > 0` and every sequence whose notes have
`startTime >= 0`, every note of `quantizeSequence sequence gridSize` has
`startTime % gridSize == 0` (the C++ remainder) and `duration >= gridSize`. -/
theorem quantizeSequence_on_grid (sequence : MidiSequence) (gridSize : Int)
    (hg : 0 < gridSize) (hs : ∀ n ∈ sequence.notes, 0 ≤ n.startTime) :
    ∀ m ∈ (quantizeSequence sequence gridSize).notes,
      m.startTime.tmod gridSize = 0 ∧ gridSize ≤ m.duration := by
  intro m hm
  simp only [quantizeSequence, List.mem_map] at hm
  obtain ⟨n, hn, rfl⟩ := hm
  exact ⟨(findClosestGridPoint_multiple _ _ (hs n hn) hg).1, le_max_right _ _⟩

/-- Claim C6 at the sequence `quarterNoteBar` and a grid of 120 ticks. -/
theorem quantizeSequence_on_grid_witness :
    (0 : Int) < 120 ∧ (∀ n ∈ quarterNoteBar.notes, 0 ≤ n.startTime) ∧
    ∀ m ∈ (quantizeSequence quarterNoteBar 120).notes,
      m.startTime.tmod 120 = 0 ∧ 120 ≤ m.duration :=
  ⟨by decide, by decide, quantizeSequence_on_grid quarterNoteBar 120 (by decide) (by decide)⟩

/-- Claim C7 fails for odd grid sizes.  With `gridSize = 3` the tick 1 has remainder
`1 = 3 / 2` (integer division) and is moved up to 3, two ticks away, although 0 is one tick
away; with `gridSize = 5` the tick 2 is moved to 5; with `gridSize = 1` the tick 0, already
on the grid, is moved to 1.  In each case `2 * |result - time| > gridSize`. -/
theorem findClosestGridPoint_not_nearest :
    findClosestGridPoint 1 3 = 3 ∧ ¬ (2 * (findClosestGridPoint 1 3 - 1).natAbs ≤ 3) ∧
    findClosestGridPoint 2 5 = 5 ∧ ¬ (2 * (findClosestGridPoint 2 5 - 2).natAbs ≤ 5) ∧
    findClosestGridPoint 0 1 = 1 ∧ ¬ (2 * (findClosestGridPoint 0 1 - 0).natAbs ≤ 1) := by
  decide

end MidiUtils

namespace MusicVAEModel

/-- Claim C9.  For latent vectors `z1`, `z2` of length `latentDimension` and `numSteps >= 2`,
`interpolate z1 z2 numSteps` has `numSteps` elements, element 0 is `z1` and element
`numSteps - 1` is `z2`, exactly (arithmetic over the rationals). -/
theorem interpolate_endpoints (latentDimension : Int) (z1 z2 : List ℚ) (numSteps : Int)
    (h1 : (z1.length : Int) = latentDimension) (h2 : (z2.length : Int) = latentDimension)
    (hs : 2 ≤ numSteps) :
    (interpolate latentDimension z1 z2 numSteps).length = numSteps.toNat ∧
    (interpolate latentDimension z1 z2 numSteps)[0]? = some z1 ∧
    (interpolate latentDimension z1 z2 numSteps)[(numSteps - 1).toNat]? = some z2 := by
  have hmax : max 2 numSteps = numSteps := max_eq_right hs
  have hd : latentDimension.toNat = z1.length := by omega
  have hd2 : latentDimension.toNat = z2.length := by omega
  have hpos : 0 < numSteps.toNat := by omega
  have hlt : (numSteps - 1).toNat < numSteps.toNat := by omega
  simp only [interpolate, h1, h2, ne_eq, not_true_eq_false, or_self, ↓reduceIte, hmax]
  refine ⟨by simp, ?_, ?_⟩
  · rw [List.getElem?_map, List.getElem?_range hpos]
    simp only [Option.map_some', Nat.cast_zero, zero_div, sub_zero, one_mul, zero_mul, add_zero]
    congr 1
    apply List.ext_getElem
    · simp [hd]
    · intro i hi1 hi2
      simp [List.getD_eq_getElem?_getD, List.getElem?_eq_getElem hi2]
  · rw [List.getElem?_map, List.getElem?_range hlt]
    have hc : (((numSteps - 1).toNat : ℕ) : ℚ) = ((numSteps - 1 : Int) : ℚ) := by
      have : (((numSteps - 1).toNat : ℕ) : Int) = numSteps - 1 := Int.toNat_of_nonneg (by omega)
      exact_mod_cast this
    have hne : ((numSteps - 1 : Int) : ℚ) ≠ 0 := by
      have : (numSteps - 1 : Int) ≠ 0 := by omega
      exact_mod_cast this
    simp only [Option.map_some', hc, div_self hne, sub_self, zero_mul, one_mul, zero_add]
    congr 1
    apply List.ext_getElem
    · simp [hd2]
    · intro i hi1 hi2
      simp [List.getD_eq_getElem?_getD, List.getElem?_eq_getElem hi2]

/-- Claim C9 at `z1 = [0, 1/3]`, `z2 = [1, -2]` and three steps. -/
theorem interpolate_endpoints_witness :
    ((([0, 1 / 3] : List ℚ).length : Int) = 2) ∧ ((([1, -2] : List ℚ).length : Int) = 2) ∧
    (2 : Int) ≤ 3 ∧
    (interpolate 2 [0, 1 / 3] [1, -2] 3).length = (3 : Int).toNat ∧
    (interpolate 2 [0, 1 / 3] [1, -2] 3)[0]? = some [0, 1 / 3] ∧
    (interpolate 2 [0, 1 / 3] [1, -2] 3)[((3 : Int) - 1).toNat]? = some [1, -2] :=
  ⟨by decide, by decide, by decide,
    interpolate_endpoints 2 [0, 1 / 3] [1, -2] 3 (by decide) (by decide) (by decide)⟩

end MusicVAEModel
end Impl

/-! ### Feature layer -/

namespace Ai
namespace MidiUtils

section
variable {K : Type} [LinearOrderedField K]

theorem sumSq_nonneg (l : List K) : 0 ≤ sumSq l := by
  unfold sumSq
  apply List.sum_nonneg
  intro x hx
  simp only [List.mem_map] at hx
  obtain ⟨y, _, rfl⟩ := hx
  exact mul_self_nonneg y

theorem sumSq_append (l₁ l₂ : List K) : sumSq (l₁ ++ l₂) = sumSq l₁ + sumSq l₂ := by
  simp [sumSq]

theorem extractSequenceFeatures_finite (s : MidiSequence) (hne : s.notes ≠ [])
    (hT : s.totalTicks ≠ 0) :
    (extractSequenceFeatures s : List (Option K)) = (finiteFeatures s).map some := by
  have hN : ((s.notes.length : K)) ≠ 0 := by
    have : s.notes.length ≠ 0 := by simpa using hne
    exact_mod_cast this
  have hT' : ((s.totalTicks : K)) ≠ 0 := by exact_mod_cast hT
  simp only [extractSequenceFeatures, finiteFeatures, fdiv, hN, hT', if_false, List.map_append,
    List.map_map, List.map_cons, List.map_nil, Function.comp_def]

theorem sumSq_finiteFeatures_pos (s : MidiSequence) (hne : s.notes ≠ [])
    (hT : 0 < s.totalTicks) : 0 < sumSq (finiteFeatures s : List K) := by
  have hN : (0 : K) < (s.notes.length : K) := by
    have : 0 < s.notes.length := List.length_pos.mpr hne
    exact_mod_cast this
  have hT' : (0 : K) < (s.totalTicks : K) := by exact_mod_cast hT
  unfold finiteFeatures
  simp only [sumSq_append]
  have hlast : 0 < sumSq [((s.notes.length : K)) / (s.totalTicks : K)] := by
    simp only [sumSq, List.map_cons, List.map_nil, List.sum_cons, List.sum_nil, add_zero]
    exact mul_pos (div_pos hN hT') (div_pos hN hT')
  linarith [sumSq_nonneg ((histograms s).pitchHistogram.map
        (fun (count : Int) => (count : K) / (s.notes.length : K))),
    sumSq_nonneg ((histograms s).rhythmHistogram.map
        (fun (count : Int) => (count : K) / (s.notes.length : K))),
    sumSq_nonneg ((histograms s).velocityHistogram.map
        (fun (count : Int) => (count : K) / (s.notes.length : K)))]

end

end MidiUtils
end Ai

/-! ### Model server: the maps -/

namespace ModelServer
variable {H : Type}

theorem mapFind_eq_none {V : Type} (l : List (ModelKey × V)) (key : ModelKey) :
    mapFind l key = none ↔ key ∉ l.map Prod.fst := by
  induction l with
  | nil => simp [mapFind]
  | cons p rest ih =>
    simp only [mapFind, List.find?_cons, List.map_cons, List.mem_cons, not_or] at ih ⊢
    by_cases h : p.1 = key
    · simp [h]
    · simp only [h, decide_False, Ne.symm h, not_false_eq_true, true_and]
      exact ih

theorem mapFind_mapAssign {V : Type} (key : ModelKey) (v : V) (l : List (ModelKey × V)) :
    mapFind (mapAssign key v l) key = some v := by
  induction l with
  | nil => simp [mapAssign, mapFind]
  | cons p rest ih =>
    unfold mapAssign
    split
    · simp [mapFind]
    · rename_i hne
      split
      · simp [mapFind]
      · simp only [mapFind, List.find?_cons, hne, decide_False] at ih ⊢
        exact ih

theorem mapAssign_perm {V : Type} (key : ModelKey) (v : V) (l : List (ModelKey × V))
    (h : key ∉ l.map Prod.fst) : (mapAssign key v l).Perm ((key, v) :: l) := by
  induction l with
  | nil => simp [mapAssign]
  | cons p rest ih =>
    simp only [List.map_cons, List.mem_cons, not_or] at h
    simp only [mapAssign, Ne.symm h.1, ↓reduceIte]
    split
    · exact List.Perm.refl _
    · exact ((ih h.2).cons p).trans (List.Perm.swap _ _ _)

theorem unloadModel_isInitialized (s : ModelServer H) (type : ModelType) (modelName : String) :
    (unloadModel s type modelName).1.isInitialized = s.isInitialized := by
  unfold unloadModel
  by_cases h1 : s.isInitialized = true <;>
    by_cases h2 : (mapFind s.loadedModels (type, modelName)).isNone = true <;>
    simp [h1, h2, notify]

theorem unloadLoop_isInitialized (env : ModelEnv H) (copySize memoryToFree : Nat) :
    ∀ (l : List (ModelKey × H)) (freed : Nat) (s : ModelServer H),
      (unloadLoop env copySize memoryToFree l freed s).isInitialized = s.isInitialized := by
  intro l
  induction l with
  | nil => intro freed s; rfl
  | cons p rest ih =>
    intro freed s
    unfold unloadLoop
    by_cases h1 : copySize = 1
    · simp [h1]
    · by_cases h2 : freed + env.getMemoryUsage p.2 ≥ memoryToFree
      · simp only [h1, ↓reduceIte, h2]
        exact unloadModel_isInitialized s _ _
      · simp only [h1, ↓reduceIte, h2]
        rw [ih]
        exact unloadModel_isInitialized s _ _

theorem unloadModelsIfNeeded_isInitialized (env : ModelEnv H) (s : ModelServer H)
    (requiredMemory : Nat) :
    (unloadModelsIfNeeded env s requiredMemory).isInitialized = s.isInitialized := by
  unfold unloadModelsIfNeeded
  by_cases h : getTotalMemoryUsage env s + requiredMemory ≤ s.maxMemoryUsage
  · simp [h]
  · simp only [h, ↓reduceIte]
    exact unloadLoop_isInitialized env _ _ _ _ _

end ModelServer

/-! ### Empty sequences, merge and groove (claims C11, C13 to C16) -/

theorem truncToInt_intCast (n : Int) : truncToInt (n : ℚ) = n := by
  unfold truncToInt
  split <;> simp

namespace Ai
namespace MidiUtils

section
variable {K : Type} [LinearOrderedField K]

theorem foldl_cosineStep_dotProduct_none (l : List (Option K × Option K)) (acc : CosineSums K)
    (h : acc.dotProduct = none) : (l.foldl cosineStep acc).dotProduct = none := by
  induction l generalizing acc with
  | nil => exact h
  | cons p rest ih =>
    rw [List.foldl_cons]
    apply ih
    simp [cosineStep, h, fadd]

theorem extractSequenceFeatures_ne_nil (s : MidiSequence) :
    (extractSequenceFeatures s : List (Option K)) ≠ [] := by
  simp [extractSequenceFeatures]

theorem extractSequenceFeatures_empty_head (e : MidiSequence) (he : e.notes = []) :
    (extractSequenceFeatures e : List (Option K)).head? = some none := by
  simp only [extractSequenceFeatures, histograms, he, List.foldl_nil, List.length_nil,
    Nat.cast_zero]
  rw [show (128 : Nat) = 127 + 1 from rfl, List.replicate_succ]
  simp only [List.map_cons, Int.cast_zero, fdiv, ↓reduceIte, List.cons_append, List.head?_cons]

/-- Claim C13 fails for every sequence without notes and with `totalTicks ≠ 0`: the vector
has 161 entries, but the 160 histogram entries are `0 / 0`, that is NaN (`none`), because the
division by `totalNotes = 0` is not guarded; only the note density `0 / totalTicks` is 0. -/
theorem extractSequenceFeatures_empty (e : MidiSequence) (he : e.notes = [])
    (hT : e.totalTicks ≠ 0) :
    (extractSequenceFeatures e : List (Option K))
      = List.replicate 160 none ++ [some 0] := by
  have hT' : ((e.totalTicks : K)) ≠ 0 := by exact_mod_cast hT
  simp only [extractSequenceFeatures, histograms, he, List.foldl_nil, List.length_nil,
    Nat.cast_zero, List.map_replicate, Int.cast_zero, fdiv, ↓reduceIte, hT', zero_div,
    List.append_replicate_replicate]

/-- Claim C11 fails for every sequence `e` without notes and every sequence `x`: the first
feature of `e` is `0 / 0`, the dot product is NaN from the first iteration on, and
`calculateSequenceSimilarity e x` returns NaN (`none`) instead of 0. -/
theorem similarity_empty_is_nan (sqrt : K → K) (e x : MidiSequence) (he : e.notes = []) :
    calculateSequenceSimilarity sqrt e x = none := by
  have hhead := extractSequenceFeatures_empty_head (K := K) e he
  unfold calculateSequenceSimilarity
  cases hfe : (extractSequenceFeatures e : List (Option K)) with
  | nil => exact absurd hfe (extractSequenceFeatures_ne_nil e)
  | cons a rest =>
    rw [hfe, List.head?_cons, Option.some.injEq] at hhead
    subst hhead
    cases hx : (extractSequenceFeatures x : List (Option K)) with
    | nil => exact absurd hx (extractSequenceFeatures_ne_nil x)
    | cons y rest2 =>
      simp only [List.zip_cons_cons, List.foldl_cons]
      rw [foldl_cosineStep_dotProduct_none _ _ (by simp [cosineStep, fmul, fadd])]
      rfl

end

/-- Claim C11 at the default empty sequence against the one-note bar `shortBar`. -/
theorem similarity_empty_is_nan_witness :
    emptySequence.notes = [] ∧
    calculateSequenceSimilarity Real.sqrt emptySequence shortBar = none :=
  ⟨rfl, similarity_empty_is_nan Real.sqrt emptySequence shortBar rfl⟩

/-- Claim C13 at the default empty sequence (1920 ticks), over the rationals. -/
theorem extractSequenceFeatures_empty_witness :
    emptySequence.notes = [] ∧ emptySequence.totalTicks ≠ 0 ∧
    (extractSequenceFeatures emptySequence : List (Option ℚ))
      = List.replicate 160 none ++ [some 0] :=
  ⟨rfl, by decide, extractSequenceFeatures_empty emptySequence rfl (by decide)⟩


theorem scaleVelocity_one (n : MidiNote) (h : |n.velocity| ≤ 2 ^ 24) :
    scaleVelocity 1 n = n := by
  simp [scaleVelocity, roundToFloat_intCast _ h, truncToInt_intCast]

theorem audibleNotes_one (notes : List MidiNote) (h : ∀ n ∈ notes, |n.velocity| ≤ 2 ^ 24) :
    audibleNotes 1 notes = notes.filter (fun n => decide (n.velocity > 10)) := by
  unfold audibleNotes
  have : notes.map (scaleVelocity 1) = notes := by
    conv_rhs => rw [← List.map_id notes]
    exact List.map_congr_left (fun n hn => scaleVelocity_one n (h n hn))
  rw [this]

theorem audibleNotes_zero (notes : List MidiNote) : audibleNotes 0 notes = [] := by
  unfold audibleNotes
  rw [List.filter_eq_nil_iff]
  intro n hn
  simp only [List.mem_map] at hn
  obtain ⟨m, _, rfl⟩ := hn
  have : truncToInt 0 = 0 := by simpa using truncToInt_intCast 0
  simp [scaleVelocity, roundToFloat_zero, this]

theorem sortByStartTime_perm (notes : List MidiNote) : (sortByStartTime notes).Perm notes :=
  List.perm_insertionSort _ _

theorem sortByStartTime_sorted (notes : List MidiNote) :
    (sortByStartTime notes).Sorted startsNoLater := by
  haveI : IsTotal MidiNote startsNoLater := ⟨fun a b => le_total a.startTime b.startTime⟩
  haveI : IsTrans MidiNote startsNoLater :=
    ⟨fun a b c (h1 : a.startTime ≤ b.startTime) (h2 : b.startTime ≤ c.startTime) =>
      le_trans h1 h2⟩
  exact List.sorted_insertionSort _ _

theorem roundToFloat_two_pow_24_succ : roundToFloat 16777217 = 16777216 := by
  rw [roundToFloat_eq 16777217 24 (by norm_num [abs_of_pos]) (by norm_num [abs_of_pos])
    (by norm_num)]
  have h : (16777217 : ℚ) / 2 ^ ((24 : Int) - 23) = ((8388608 : Int) : ℚ) + 1 / 2 := by
    norm_num
  rw [h, roundHalfEven_half_of_even _ (by decide)]
  norm_num

/-- Claim C14 fails on a note of velocity `2^24 + 1 = 16777217`: the conversion of the
velocity to `float` rounds it to 16777216, so with weight 1 the merged sequence holds a note
of velocity 16777216, which is not a note of `seqA`. -/
theorem mergeSequences_rounds_velocity :
    (mergeSequences loudBar emptySequence 1).notes
      = [{ loudNote with velocity := 16777216 }] ∧
    ({ loudNote with velocity := 16777216 } : MidiNote) ∉ loudBar.notes := by
  have hw : max (0 : ℚ) (min 1 1) = 1 := by norm_num
  have ht : truncToInt (16777216 : ℚ) = 16777216 := by
    simpa using truncToInt_intCast 16777216
  have hr : roundToFloat (16777216 : ℚ) = 16777216 := by
    simpa using roundToFloat_intCast 16777216 (by norm_num)
  constructor
  · simp [mergeSequences, hw, audibleNotes, scaleVelocity, loudBar, loudNote, emptySequence,
      sortByStartTime, roundToFloat_two_pow_24_succ, hr, ht]
  · decide

/-- Claim C14, amended.  For all sequences `seqA` and `seqB` such that the velocities of `seqA`
are at most `2^24` in absolute value (as every MIDI velocity is), the notes of
`mergeSequences seqA seqB 1` are, up to order, exactly the notes of `seqA` with velocity above
10, each with all its fields unchanged: a sub-multiset of the notes of `seqA`; the second
loop, run with weight `1 - 1 = 0`, contributes no note of `seqB`. -/
theorem mergeSequences_weight_one (seqA seqB : MidiSequence)
    (hv : ∀ n ∈ seqA.notes, |n.velocity| ≤ 2 ^ 24) :
    (mergeSequences seqA seqB 1).notes.Perm
      (seqA.notes.filter (fun n => decide (n.velocity > 10))) ∧
    (mergeSequences seqA seqB 1).notes.Subperm seqA.notes ∧
    (∀ n ∈ (mergeSequences seqA seqB 1).notes, n ∈ seqA.notes) ∧
    audibleNotes (roundToFloat (1 - max 0 (min 1 1))) seqB.notes = [] := by
  have hw : max (0 : ℚ) (min 1 1) = 1 := by norm_num
  have hperm : (mergeSequences seqA seqB 1).notes.Perm
      (seqA.notes.filter (fun n => decide (n.velocity > 10))) := by
    simp only [mergeSequences, hw, sub_self, roundToFloat_zero, audibleNotes_one _ hv,
      audibleNotes_zero, List.append_nil]
    exact sortByStartTime_perm _
  have hsub : (mergeSequences seqA seqB 1).notes.Subperm seqA.notes :=
    hperm.subperm.trans (List.filter_sublist _).subperm
  exact ⟨hperm, hsub, fun n hn => hsub.subset hn,
    by rw [hw, sub_self, roundToFloat_zero, audibleNotes_zero]⟩

/-- Claim C14, amended, at `seqA = shortBar` (velocity 64) and `seqB = quarterNoteBar`. -/
theorem mergeSequences_weight_one_witness :
    (∀ n ∈ shortBar.notes, |n.velocity| ≤ 2 ^ 24) ∧
    (mergeSequences shortBar Impl.MidiUtils.quarterNoteBar 1).notes.Perm
      (shortBar.notes.filter (fun n => decide (n.velocity > 10))) ∧
    (mergeSequences shortBar Impl.MidiUtils.quarterNoteBar 1).notes.Subperm shortBar.notes ∧
    (∀ n ∈ (mergeSequences shortBar Impl.MidiUtils.quarterNoteBar 1).notes,
      n ∈ shortBar.notes) ∧
    audibleNotes (roundToFloat (1 - max 0 (min 1 1))) Impl.MidiUtils.quarterNoteBar.notes
      = [] :=
  ⟨by decide, mergeSequences_weight_one shortBar Impl.MidiUtils.quarterNoteBar (by decide)⟩

/-- Claim C15.  For all sequences and every (finite) weight, the notes of
`mergeSequences seqA seqB weight` are in non-decreasing `startTime` order and each has a
velocity strictly above 10. -/
theorem mergeSequences_sorted_audible (seqA seqB : MidiSequence) (weight : ℚ) :
    (mergeSequences seqA seqB weight).notes.Sorted startsNoLater ∧
    ∀ n ∈ (mergeSequences seqA seqB weight).notes, 10 < n.velocity := by
  refine ⟨sortByStartTime_sorted _, ?_⟩
  intro n hn
  have hn' := (sortByStartTime_perm _).subset hn
  simp only [List.mem_append, audibleNotes, List.mem_filter, decide_eq_true_eq] at hn'
  rcases hn' with h | h <;> exact h.2

theorem getD_zero_of_all_zero (g : List ℚ) (hz : ∀ x ∈ g, x = 0) (i : Nat) :
    g.getD i 0 = 0 := by
  rw [List.getD_eq_getElem?_getD]
  cases h : g[i]? with
  | none => rfl
  | some x => exact hz x (List.getElem?_mem h)

theorem grooveNote_zero (s : MidiSequence) (g : List ℚ) (n : MidiNote)
    (hne : g ≠ []) (hz : ∀ x ∈ g, x = 0) (hlen : (g.length : Int) ≤ s.totalTicks)
    (hn : 0 ≤ n.startTime) : grooveNote s g n = some n := by
  have hL : (0 : Int) < g.length := by
    have : 0 < g.length := List.length_pos.mpr hne
    exact_mod_cast this
  have hT : 0 ≤ s.totalTicks := by omega
  have hstep : 0 < s.totalTicks.tdiv (g.length : Int) := by
    rw [Int.tdiv_eq_ediv hT hL.le]
    have h1 : (1 : Int) ≤ s.totalTicks / (g.length : Int) :=
      (Int.le_ediv_iff_mul_le hL).mpr (by omega)
    omega
  have hidx : 0 ≤ (n.startTime.tdiv (s.totalTicks.tdiv (g.length : Int))).tmod
      (g.length : Int) :=
    Int.tmod_nonneg _ (Int.tdiv_nonneg hn hstep.le)
  simp only [grooveNote, hstep.ne.symm, ↓reduceIte, not_lt.mpr hidx,
    getD_zero_of_all_zero g hz, zero_mul, add_zero, truncToInt_intCast, max_eq_right hn]

theorem grooveNotes_zero (s : MidiSequence) (g : List ℚ)
    (hne : g ≠ []) (hz : ∀ x ∈ g, x = 0) (hlen : (g.length : Int) ≤ s.totalTicks) :
    ∀ (notes : List MidiNote), (∀ n ∈ notes, 0 ≤ n.startTime) →
      grooveNotes s g notes = some notes := by
  intro notes
  induction notes with
  | nil => intro _; rfl
  | cons n rest ih =>
    intro h
    simp only [grooveNotes, grooveNote_zero s g n hne hz hlen (h n (List.mem_cons_self _ _)),
      ih (fun m hm => h m (List.mem_cons_of_mem _ hm))]

/-- An all-zero groove with at most `totalTicks` entries leaves a sequence with non-negative
start times as it is. -/
theorem applyGroove_zero_of_short_groove (s : MidiSequence) (g : List ℚ)
    (hs : ∀ n ∈ s.notes, 0 ≤ n.startTime)
    (hne : g ≠ []) (hz : ∀ x ∈ g, x = 0) (hlen : (g.length : Int) ≤ s.totalTicks) :
    applyGroove s g = some s := by
  simp only [applyGroove, hne, ↓reduceIte, grooveNotes_zero s g hne hz hlen s.notes hs]

/-- Claim C16 fails when the groove vector has more entries than the sequence has ticks.  For
the 16-tick bar `shortBar` (one note in range) and the all-zero groove of 32 entries,
`sequence.totalTicks / grooveLength = 16 / 32 = 0` and `applyGroove` divides the start time
of the note by zero (`none`) instead of returning the sequence. -/
theorem applyGroove_long_groove_divides_by_zero :
    0 < shortBar.totalTicks ∧
    (∀ n ∈ shortBar.notes, 0 ≤ n.pitch ∧ n.pitch ≤ 127 ∧ 0 ≤ n.velocity ∧ n.velocity ≤ 127 ∧
      0 ≤ n.startTime ∧ 0 < n.duration) ∧
    List.replicate 32 (0 : ℚ) ≠ [] ∧ (∀ x ∈ List.replicate 32 (0 : ℚ), x = 0) ∧
    applyGroove shortBar (List.replicate 32 0) = none := by
  refine ⟨by decide, by decide, by decide, ?_, by decide⟩
  intro x hx
  exact (List.mem_replicate.mp hx).2


/-! ### The cosine lies in [0, 1] (claim C12) -/

section
variable {K : Type} [LinearOrderedField K]

theorem forall_mem_modify {α : Type} (P : α → Prop) (f : α → α) (hf : ∀ x, P x → P (f x)) :
    ∀ (n : Nat) (l : List α), (∀ x ∈ l, P x) → ∀ x ∈ l.modify f n, P x := by
  intro n
  induction n with
  | zero =>
    intro l hl
    cases l with
    | nil => simp
    | cons a rest =>
      simp only [List.modify_zero_cons, List.mem_cons, forall_eq_or_imp] at hl ⊢
      exact ⟨hf a hl.1, hl.2⟩
  | succ n ih =>
    intro l hl
    cases l with
    | nil => simp
    | cons a rest =>
      simp only [List.modify_succ_cons, List.mem_cons, forall_eq_or_imp] at hl ⊢
      exact ⟨hl.1, ih rest hl.2⟩

theorem increment_nonneg (h : List Int) (bin : Int) (hh : ∀ c ∈ h, 0 ≤ c) :
    ∀ c ∈ increment h bin, 0 ≤ c :=
  forall_mem_modify (fun c => 0 ≤ c) _ (fun x hx => by omega) _ h hh

theorem histogramsOk_foldl (totalTicks : Int) (notes : List MidiNote) :
    ∀ h, HistogramsOk h → HistogramsOk (notes.foldl (countNote totalTicks) h) := by
  induction notes with
  | nil => intro h hh; exact hh
  | cons n rest ih =>
    intro h hh
    rw [List.foldl_cons]
    apply ih
    obtain ⟨h1, h2, h3, h4, h5, h6⟩ := hh
    refine ⟨?_, ?_, ?_, increment_nonneg _ _ h4, increment_nonneg _ _ h5,
      increment_nonneg _ _ h6⟩ <;> simp [countNote, increment, h1, h2, h3]

theorem histogramsOk_histograms (s : MidiSequence) : HistogramsOk (histograms s) := by
  apply histogramsOk_foldl
  refine ⟨by simp, by simp, by simp, ?_, ?_, ?_⟩ <;>
    (intro c hc; rw [(List.mem_replicate.mp hc).2])

theorem length_finiteFeatures (s : MidiSequence) :
    (finiteFeatures s : List K).length = 161 := by
  obtain ⟨h1, h2, h3, _, _, _⟩ := histogramsOk_histograms s
  simp [finiteFeatures, h1, h2, h3]

theorem finiteFeatures_nonneg (s : MidiSequence) (hT : 0 < s.totalTicks) :
    ∀ x ∈ (finiteFeatures s : List K), 0 ≤ x := by
  obtain ⟨_, _, _, h4, h5, h6⟩ := histogramsOk_histograms s
  have hN : (0 : K) ≤ (s.notes.length : K) := Nat.cast_nonneg _
  have hT' : (0 : K) ≤ (s.totalTicks : K) := by exact_mod_cast hT.le
  intro x hx
  simp only [finiteFeatures, List.mem_append, List.mem_map, List.mem_singleton] at hx
  rcases hx with ((⟨c, hc, rfl⟩ | ⟨c, hc, rfl⟩) | ⟨c, hc, rfl⟩) | rfl
  · exact div_nonneg (by exact_mod_cast h4 c hc) hN
  · exact div_nonneg (by exact_mod_cast h5 c hc) hN
  · exact div_nonneg (by exact_mod_cast h6 c hc) hN
  · exact div_nonneg hN hT'

theorem foldl_cosineStep_pairs (p : List (K × K)) (d a b : K) :
    (p.map (fun q => (some q.1, some q.2))).foldl cosineStep
      { dotProduct := some d, norm1 := some a, norm2 := some b }
      = { dotProduct := some (d + dotProductOf p),
          norm1 := some (a + sumSq (p.map Prod.fst)),
          norm2 := some (b + sumSq (p.map Prod.snd)) } := by
  induction p generalizing d a b with
  | nil => simp [dotProductOf, sumSq]
  | cons q rest ih =>
    simp only [List.map_cons, List.foldl_cons, cosineStep, fadd, fmul]
    rw [ih]
    simp [dotProductOf, sumSq, add_assoc]

theorem dotProductOf_nonneg (p : List (K × K)) (h : ∀ q ∈ p, 0 ≤ q.1 ∧ 0 ≤ q.2) :
    0 ≤ dotProductOf p := by
  unfold dotProductOf
  apply List.sum_nonneg
  intro x hx
  simp only [List.mem_map] at hx
  obtain ⟨q, hq, rfl⟩ := hx
  exact mul_nonneg (h q hq).1 (h q hq).2

theorem sum_sq_affine (p : List (K × K)) (t : K) :
    (p.map (fun q => (q.1 * t + q.2) * (q.1 * t + q.2))).sum
      = sumSq (p.map Prod.fst) * t * t + 2 * dotProductOf p * t + sumSq (p.map Prod.snd) := by
  induction p with
  | nil => simp [sumSq, dotProductOf]
  | cons q rest ih =>
    simp only [List.map_cons, List.sum_cons, ih, sumSq, dotProductOf]
    ring

/-- The Cauchy-Schwarz inequality for the sums of a list of pairs. -/
theorem dotProductOf_sq_le (p : List (K × K)) :
    dotProductOf p * dotProductOf p ≤ sumSq (p.map Prod.fst) * sumSq (p.map Prod.snd) := by
  have h : ∀ t : K, 0 ≤ sumSq (p.map Prod.fst) * (t * t) + 2 * dotProductOf p * t
      + sumSq (p.map Prod.snd) := by
    intro t
    rw [← mul_assoc, ← sum_sq_affine]
    apply List.sum_nonneg
    intro x hx
    simp only [List.mem_map] at hx
    obtain ⟨q, _, rfl⟩ := hx
    exact mul_self_nonneg _
  have hd := discrim_le_zero (K := K) h
  unfold discrim at hd
  nlinarith [hd]

end

/-- Claim C12.  For all non-empty sequences `a` and `b` with pitches and velocities in
`[0, 127]`, `startTime >= 0` and `totalTicks > 0`, `calculateSequenceSimilarity a b` is a
finite value in the closed interval `[0, 1]` (arithmetic over the reals). -/
theorem similarity_in_unit_interval (a b : MidiSequence)
    (hane : a.notes ≠ []) (hbne : b.notes ≠ [])
    (_har : ∀ n ∈ a.notes, 0 ≤ n.pitch ∧ n.pitch ≤ 127 ∧ 0 ≤ n.velocity ∧ n.velocity ≤ 127 ∧
      0 ≤ n.startTime)
    (_hbr : ∀ n ∈ b.notes, 0 ≤ n.pitch ∧ n.pitch ≤ 127 ∧ 0 ≤ n.velocity ∧ n.velocity ≤ 127 ∧
      0 ≤ n.startTime)
    (haT : 0 < a.totalTicks) (hbT : 0 < b.totalTicks) :
    ∃ r : ℝ, calculateSequenceSimilarity Real.sqrt a b = some r ∧ 0 ≤ r ∧ r ≤ 1 := by
  have hlen : (finiteFeatures a : List ℝ).length = (finiteFeatures b : List ℝ).length := by
    rw [length_finiteFeatures, length_finiteFeatures]
  have hfst : ((finiteFeatures a : List ℝ).zip (finiteFeatures b)).map Prod.fst
      = finiteFeatures a := List.map_fst_zip _ _ hlen.le
  have hsnd : ((finiteFeatures a : List ℝ).zip (finiteFeatures b)).map Prod.snd
      = finiteFeatures b := List.map_snd_zip _ _ hlen.ge
  have hA := sumSq_finiteFeatures_pos (K := ℝ) a hane haT
  have hB := sumSq_finiteFeatures_pos (K := ℝ) b hbne hbT
  have hD : 0 ≤ dotProductOf ((finiteFeatures a : List ℝ).zip (finiteFeatures b)) := by
    apply dotProductOf_nonneg
    intro q hq
    exact ⟨finiteFeatures_nonneg a haT _ (List.of_mem_zip hq).1,
      finiteFeatures_nonneg b hbT _ (List.of_mem_zip hq).2⟩
  have hCS := dotProductOf_sq_le ((finiteFeatures a : List ℝ).zip (finiteFeatures b))
  rw [hfst, hsnd] at hCS
  have hzip : ((finiteFeatures a : List ℝ).map some).zip ((finiteFeatures b : List ℝ).map some)
      = ((finiteFeatures a : List ℝ).zip (finiteFeatures b)).map
          (fun q => (some q.1, some q.2)) := by
    rw [List.zip_map]; rfl
  have hsA : 0 < Real.sqrt (sumSq (finiteFeatures a : List ℝ)) := Real.sqrt_pos.mpr hA
  have hsB : 0 < Real.sqrt (sumSq (finiteFeatures b : List ℝ)) := Real.sqrt_pos.mpr hB
  refine ⟨dotProductOf ((finiteFeatures a : List ℝ).zip (finiteFeatures b))
      / (Real.sqrt (sumSq (finiteFeatures a)) * Real.sqrt (sumSq (finiteFeatures b))),
    ?_, div_nonneg hD (mul_pos hsA hsB).le, ?_⟩
  · unfold calculateSequenceSimilarity
    simp only [extractSequenceFeatures_finite a hane haT.ne.symm,
      extractSequenceFeatures_finite b hbne hbT.ne.symm, hzip, foldl_cosineStep_pairs,
      zero_add, hfst, hsnd]
    simp only [fsqrt, not_lt.mpr hA.le, not_lt.mpr hB.le, ↓reduceIte, fmul, fdiv,
      (mul_pos hsA hsB).ne.symm]
  · rw [div_le_one (mul_pos hsA hsB), ← Real.sqrt_mul hA.le]
    apply Real.le_sqrt_of_sq_le
    rw [sq]
    exact hCS

end MidiUtils
end Ai

/-! ### Model server: frame properties, coherence and no-op unloads (claim C18) -/

namespace ModelServer
variable {H : Type}

theorem unloadModel_frame (s : ModelServer H) (type : ModelType) (modelName : String) :
    (unloadModel s type modelName).1.loadedModels.Sublist s.loadedModels ∧
    (unloadModel s type modelName).1.availableModels = s.availableModels ∧
    (unloadModel s type modelName).1.maxMemoryUsage = s.maxMemoryUsage := by
  unfold unloadModel
  by_cases h1 : s.isInitialized = true <;>
    by_cases h2 : (mapFind s.loadedModels (type, modelName)).isNone = true <;>
    simp [h1, h2, notify, mapErase]

theorem unloadLoop_frame (env : ModelEnv H) (copySize memoryToFree : Nat) :
    ∀ (l : List (ModelKey × H)) (freed : Nat) (s : ModelServer H),
      (unloadLoop env copySize memoryToFree l freed s).loadedModels.Sublist s.loadedModels ∧
      (unloadLoop env copySize memoryToFree l freed s).availableModels = s.availableModels ∧
      (unloadLoop env copySize memoryToFree l freed s).maxMemoryUsage = s.maxMemoryUsage := by
  intro l
  induction l with
  | nil => intro freed s; exact ⟨List.Sublist.refl _, rfl, rfl⟩
  | cons p rest ih =>
    intro freed s
    have hu := unloadModel_frame s p.1.1 p.1.2
    unfold unloadLoop
    by_cases h1 : copySize = 1
    · simp [h1]
    · by_cases h2 : freed + env.getMemoryUsage p.2 ≥ memoryToFree
      · simp only [h1, ↓reduceIte, h2]
        exact hu
      · simp only [h1, ↓reduceIte, h2]
        obtain ⟨i1, i2, i3⟩ := ih (freed + env.getMemoryUsage p.2) (unloadModel s p.1.1 p.1.2).1
        exact ⟨i1.trans hu.1, i2.trans hu.2.1, i3.trans hu.2.2⟩

theorem unloadModelsIfNeeded_frame (env : ModelEnv H) (s : ModelServer H)
    (requiredMemory : Nat) :
    (unloadModelsIfNeeded env s requiredMemory).loadedModels.Sublist s.loadedModels ∧
    (unloadModelsIfNeeded env s requiredMemory).availableModels = s.availableModels ∧
    (unloadModelsIfNeeded env s requiredMemory).maxMemoryUsage = s.maxMemoryUsage := by
  unfold unloadModelsIfNeeded
  by_cases h : getTotalMemoryUsage env s + requiredMemory ≤ s.maxMemoryUsage
  · simp [h]
  · simp only [h, ↓reduceIte]
    exact unloadLoop_frame env _ _ _ _ _

theorem coherent_of_sublist (s s1 : ModelServer H) (h : Coherent s)
    (hsub : s1.loadedModels.Sublist s.loadedModels)
    (hav : s1.availableModels = s.availableModels)
    (hinit : s1.isInitialized = s.isInitialized) : Coherent s1 := by
  obtain ⟨h1, h2, h3⟩ := h
  refine ⟨(hsub.map Prod.fst).nodup h1, ?_, ?_⟩
  · intro key hkey
    rw [hav]
    exact h2 key ((hsub.map Prod.fst).subset hkey)
  · intro hi
    rw [hinit] at hi
    have := h3 hi
    rw [this] at hsub
    exact List.sublist_nil.mp hsub

theorem coherent_initializeServer (table : List ModelMetadata) (directoryExists : Bool)
    (s : ModelServer H) (dir : String) (maxMemoryUsage : Nat) (gpu : Bool) (h : Coherent s) :
    Coherent (initializeServer table directoryExists s dir maxMemoryUsage gpu).1 := by
  unfold initializeServer
  by_cases h1 : s.isInitialized = true
  · simpa [h1] using h
  · by_cases h2 : directoryExists = true
    · have hl : s.loadedModels = [] := h.2.2 (by simpa using h1)
      simp [h1, h2, Coherent, scanForModels, hl]
    · simpa [h1, h2] using h

theorem coherent_unloadModel (s : ModelServer H) (type : ModelType) (modelName : String)
    (h : Coherent s) : Coherent (unloadModel s type modelName).1 :=
  coherent_of_sublist s _ h (unloadModel_frame s type modelName).1
    (unloadModel_frame s type modelName).2.1 (unloadModel_isInitialized s type modelName)

theorem coherent_unloadModelsIfNeeded (env : ModelEnv H) (s : ModelServer H)
    (requiredMemory : Nat) (h : Coherent s) :
    Coherent (unloadModelsIfNeeded env s requiredMemory) :=
  coherent_of_sublist s _ h (unloadModelsIfNeeded_frame env s requiredMemory).1
    (unloadModelsIfNeeded_frame env s requiredMemory).2.1
    (unloadModelsIfNeeded_isInitialized env s requiredMemory)

theorem coherent_loadModel (env : ModelEnv H) (s : ModelServer H) (type : ModelType)
    (modelName : String) (h : Coherent s) : Coherent (loadModel env s type modelName).1 := by
  unfold loadModel
  by_cases hinit : s.isInitialized = true
  · simp only [hinit, Bool.not_true, Bool.false_eq_true, ↓reduceIte]
    split
    · exact h
    · rename_i hnot
      have hnone : mapFind s.loadedModels (type, modelName) = none := by simpa using hnot
      split
      · exact h
      · rename_i metadata hav
        have key : ∀ s1 : ModelServer H, Coherent s1 → s1.loadedModels.Sublist s.loadedModels →
            s1.availableModels = s.availableModels → s1.isInitialized = true →
            Coherent (notify
              { s1 with
                loadedModels :=
                  mapAssign (type, modelName) (env.createModel metadata) s1.loadedModels }
              type modelName true) := by
          intro s1 hc hsub hav1 hi1
          have hkey : (type, modelName) ∉ s1.loadedModels.map Prod.fst := by
            intro hmem
            exact (mapFind_eq_none s.loadedModels (type, modelName)).mp hnone
              ((hsub.map Prod.fst).subset hmem)
          have hperm := mapAssign_perm (type, modelName) (env.createModel metadata) _ hkey
          refine ⟨?_, ?_, ?_⟩
          · simp only [notify]
            rw [(hperm.map Prod.fst).nodup_iff]
            simpa using ⟨by simpa using hkey, hc.1⟩
          · intro k hk
            simp only [notify] at hk ⊢
            have hk' := (hperm.map Prod.fst).subset hk
            simp only [List.map_cons, List.mem_cons] at hk'
            rcases hk' with rfl | hk'
            · rw [hav1, hav]; simp
            · exact hc.2.1 k hk'
          · intro hi
            simp only [notify] at hi
            rw [hi1] at hi
            exact absurd hi (by simp)
        by_cases hmax : s.maxMemoryUsage > 0
        · simp only [hmax, ↓reduceIte]
          exact key _ (coherent_unloadModelsIfNeeded env s _ h)
            (unloadModelsIfNeeded_frame env s _).1 (unloadModelsIfNeeded_frame env s _).2.1
            ((unloadModelsIfNeeded_isInitialized env s _).trans hinit)
        · simp only [hmax, ↓reduceIte]
          exact key s h (List.Sublist.refl _) rfl hinit
  · simpa [hinit] using h

theorem coherent_getModel (env : ModelEnv H) (s : ModelServer H) (type : ModelType)
    (modelName : String) (h : Coherent s) : Coherent (getModel env s type modelName).1 := by
  have hl := coherent_loadModel env s type modelName h
  unfold getModel
  by_cases h1 : s.isInitialized = true
  · by_cases h2 : (mapFind s.loadedModels (type, modelName)).isNone = true
    · by_cases h3 : (loadModel env s type modelName).2 = true
      · simpa [h1, h2, h3] using hl
      · simpa [h1, h2, h3] using hl
    · simpa [h1, h2] using h
  · simpa [h1] using h

theorem coherent_setMaxMemoryUsage (env : ModelEnv H) (s : ModelServer H)
    (maxMemoryUsage : Nat) (h : Coherent s) :
    Coherent (setMaxMemoryUsage env s maxMemoryUsage) := by
  have h0 : Coherent { s with maxMemoryUsage := maxMemoryUsage } := h
  have h1 := coherent_unloadModelsIfNeeded env { s with maxMemoryUsage := maxMemoryUsage } 0 h0
  unfold setMaxMemoryUsage
  by_cases ha : maxMemoryUsage > 0
  · by_cases hb : getTotalMemoryUsage env { s with maxMemoryUsage := maxMemoryUsage }
        > maxMemoryUsage
    · simpa [ha, hb] using h1
    · simpa [ha, hb] using h0
  · simpa [ha] using h0

/-- Every state the public operations can produce is coherent. -/
theorem coherent_of_publicReachable (env : ModelEnv H) (table : List ModelMetadata)
    (s : ModelServer H) (hs : PublicReachable env table s) : Coherent s := by
  induction hs with
  | construct => simp [Coherent]
  | init s d dir m g _ ih => exact coherent_initializeServer table d s dir m g ih
  | load s type modelName _ ih => exact coherent_loadModel env s type modelName ih
  | get s type modelName _ ih => exact coherent_getModel env s type modelName ih
  | unload s type modelName _ ih => exact coherent_unloadModel s type modelName ih
  | setMax s m _ ih => exact coherent_setMaxMemoryUsage env s m ih
  | gpu s e _ ih => exact ih
  | register s _ ih => exact ih
  | unregister s c _ ih => exact ih

/-- Claim C18.  On an initialized server, `unloadModel` for a key that is not resident returns
true and leaves the whole state as it is: the resident set is unchanged and no callback is
invoked. -/
theorem unloadModel_not_resident (s : ModelServer H) (hinit : s.isInitialized = true)
    (type : ModelType) (modelName : String)
    (hkey : mapFind s.loadedModels (type, modelName) = none) :
    unloadModel s type modelName = (s, true) := by
  simp [unloadModel, hinit, hkey]

/-- Claim C18 at the freshly initialized server `modelLoadingStart` and the key of MusicVAE. -/
theorem unloadModel_not_resident_witness :
    modelLoadingStart.isInitialized = true ∧
    mapFind modelLoadingStart.loadedModels (.MusicVAE, "") = none ∧
    unloadModel modelLoadingStart .MusicVAE "" = (modelLoadingStart, true) :=
  ⟨by decide, by decide,
    unloadModel_not_resident modelLoadingStart (by decide) .MusicVAE "" (by decide)⟩

end ModelServer

namespace Ai
namespace MidiUtils

/-- Claim C12 at the sequences `quarterNoteBar` and `shortBar`. -/
theorem similarity_in_unit_interval_witness :
    Impl.MidiUtils.quarterNoteBar.notes ≠ [] ∧ shortBar.notes ≠ [] ∧
    0 < Impl.MidiUtils.quarterNoteBar.totalTicks ∧ 0 < shortBar.totalTicks ∧
    ∃ r : ℝ, calculateSequenceSimilarity Real.sqrt Impl.MidiUtils.quarterNoteBar shortBar
      = some r ∧ 0 ≤ r ∧ r ≤ 1 :=
  ⟨by decide, by decide, by decide, by decide,
    similarity_in_unit_interval Impl.MidiUtils.quarterNoteBar shortBar (by decide) (by decide)
      (by decide) (by decide) (by decide) (by decide)⟩

end MidiUtils
end Ai

/-! ### Whole records, the quantized duration and idempotence (claims C21, C25, C28) -/

namespace Impl
namespace MidiUtils

theorem decodeRecords_fst : ∀ (t : List ℚ) (notes : List MidiNote) (m : ℚ),
    (decodeRecords t notes m).1 =
      notes ++ (List.range (t.length / 5)).map (fun i => staticPart (recordNote t 0 i))
  | p :: v :: s :: d :: perc :: rest, notes, m => by
    have hlen : (p :: v :: s :: d :: perc :: rest).length / 5 = rest.length / 5 + 1 := by
      simp only [List.length_cons]; omega
    rw [decodeRecords, decodeRecords_fst rest, hlen, List.range_succ_eq_map]
    simp [recordNote, staticPart, Nat.mul_succ, Function.comp_def]
  | [], notes, m => by simp [decodeRecords]
  | [_], notes, m => by simp [decodeRecords]
  | [_, _], notes, m => by simp [decodeRecords]
  | [_, _, _], notes, m => by simp [decodeRecords]
  | [_, _, _, _], notes, m => by simp [decodeRecords]

theorem decodeRecords_take : ∀ (t : List ℚ) (notes : List MidiNote) (m : ℚ),
    decodeRecords (t.take (5 * (t.length / 5))) notes m = decodeRecords t notes m
  | p :: v :: s :: d :: perc :: rest, notes, m => by
    have hlen : 5 * ((p :: v :: s :: d :: perc :: rest).length / 5)
        = 5 * (rest.length / 5) + 1 + 1 + 1 + 1 + 1 := by
      simp only [List.length_cons]; omega
    rw [hlen]
    simp only [List.take_succ_cons]
    rw [decodeRecords, decodeRecords, decodeRecords_take rest]
  | [], notes, m => by simp [decodeRecords]
  | [_], notes, m => by simp [decodeRecords]
  | [_, _], notes, m => by simp [decodeRecords]
  | [_, _, _], notes, m => by simp [decodeRecords]
  | [_, _, _, _], notes, m => by simp [decodeRecords]

theorem tensorToSequence_notes (tensor : List ℚ) (ticksPerQuarter : Int) :
    (tensorToSequence tensor ticksPerQuarter).notes =
      (List.range (tensor.length / 5)).map
        (recordNote tensor (tensorToSequence tensor ticksPerQuarter).totalTicks) := by
  apply List.ext_getElem?
  intro i
  simp only [tensorToSequence, decodeRecords_fst, List.nil_append, List.getElem?_map,
    List.getElem?_enum, List.getElem?_range]
  by_cases hi : i < tensor.length / 5
  · simp [List.getElem?_range hi, recordNote, staticPart, Nat.mul_comm]
  · have hnone : (List.range (tensor.length / 5))[i]? = none :=
      List.getElem?_eq_none (by simpa using hi)
    simp [hnone]

/-- Claim C21.  For every tensor of length `n`, the notes of `tensorToSequence` are exactly the
`n / 5` notes built from the records `0, ..., n / 5 - 1` (record `i` being the tensor values
`5 * i` to `5 * i + 4`); the values after the last whole record are ignored: the tensor cut
after its last whole record decodes to the same sequence.  The function is total. -/
theorem tensorToSequence_whole_records (tensor : List ℚ) (ticksPerQuarter : Int) :
    (tensorToSequence tensor ticksPerQuarter).notes.length = tensor.length / 5 ∧
    (tensorToSequence tensor ticksPerQuarter).notes =
      (List.range (tensor.length / 5)).map
        (recordNote tensor (tensorToSequence tensor ticksPerQuarter).totalTicks) ∧
    tensorToSequence (tensor.take (5 * (tensor.length / 5))) ticksPerQuarter =
      tensorToSequence tensor ticksPerQuarter := by
  have hlen : (tensor.take (5 * (tensor.length / 5))).length / 5 = tensor.length / 5 := by
    rw [List.length_take, min_eq_left (Nat.mul_div_le _ _)]
    exact Nat.mul_div_cancel_left _ (by decide)
  have hT : (tensorToSequence (tensor.take (5 * (tensor.length / 5))) ticksPerQuarter).totalTicks
      = (tensorToSequence tensor ticksPerQuarter).totalTicks := by
    simp only [tensorToSequence, decodeRecords_take]
  refine ⟨by rw [tensorToSequence_notes]; simp, tensorToSequence_notes tensor ticksPerQuarter, ?_⟩
  have hnotes : (tensorToSequence (tensor.take (5 * (tensor.length / 5))) ticksPerQuarter).notes
      = (tensorToSequence tensor ticksPerQuarter).notes := by
    rw [tensorToSequence_notes, tensorToSequence_notes tensor, hlen, hT]
    apply List.map_congr_left
    intro i hi
    have hi5 : i < tensor.length / 5 := List.mem_range.mp hi
    have hb : 5 * i + 4 < 5 * (tensor.length / 5) := by omega
    have hget : ∀ j, j < 5 * (tensor.length / 5) →
        (tensor.take (5 * (tensor.length / 5))).getD j 0 = tensor.getD j 0 := by
      intro j hj
      simp [List.getD_eq_getElem?_getD, List.getElem?_take, hj]
    simp only [recordNote]
    rw [hget _ (by omega), hget _ (by omega), hget _ (by omega), hget _ (by omega),
      hget _ (by omega)]
  have htpq : (tensorToSequence (tensor.take (5 * (tensor.length / 5))) ticksPerQuarter).ticksPerQuarter
      = (tensorToSequence tensor ticksPerQuarter).ticksPerQuarter := rfl
  have hn : (tensorToSequence (tensor.take (5 * (tensor.length / 5))) ticksPerQuarter).timeSignatureNumerator
      = (tensorToSequence tensor ticksPerQuarter).timeSignatureNumerator := rfl
  have hd : (tensorToSequence (tensor.take (5 * (tensor.length / 5))) ticksPerQuarter).timeSignatureDenominator
      = (tensorToSequence tensor ticksPerQuarter).timeSignatureDenominator := rfl
  generalize tensorToSequence (tensor.take (5 * (tensor.length / 5))) ticksPerQuarter = a at *
  generalize tensorToSequence tensor ticksPerQuarter = b at *
  cases a; cases b
  simp_all

/-- Claim C21 at a tensor of seven values: one whole record and two values more. -/
theorem tensorToSequence_whole_records_witness :
    (tensorToSequence [0, 0, 1, 1, 0, 1, 1] 480).notes.length = 1 :=
  (tensorToSequence_whole_records [0, 0, 1, 1, 0, 1, 1] 480).1

theorem findClosestGridPoint_dvd (time gridSize : Int) :
    gridSize ∣ findClosestGridPoint time gridSize := by
  unfold findClosestGridPoint
  have h := Int.tmod_add_tdiv time gridSize
  dsimp only
  split
  · exact ⟨time.tdiv gridSize, by linarith⟩
  · exact ⟨time.tdiv gridSize + 1, by linarith⟩

theorem findClosestGridPoint_of_dvd (time gridSize : Int) (hg : 2 ≤ gridSize)
    (h : gridSize ∣ time) : findClosestGridPoint time gridSize = time := by
  unfold findClosestGridPoint
  have h0 : time.tmod gridSize = 0 := Int.tmod_eq_zero_of_dvd h
  have h2 : 0 < gridSize.tdiv 2 := by
    rw [Int.tdiv_eq_ediv (by omega) (by decide)]
    omega
  simp [h0, h2]

theorem quantizeNote_idempotent (gridSize : Int) (hg : 2 ≤ gridSize) (note : MidiNote) :
    quantizeNote gridSize (quantizeNote gridSize note) = quantizeNote gridSize note := by
  have hs := findClosestGridPoint_dvd note.startTime gridSize
  have he := findClosestGridPoint_dvd
    (findClosestGridPoint note.startTime gridSize + note.duration) gridSize
  have hd : gridSize ∣ max (findClosestGridPoint
      (findClosestGridPoint note.startTime gridSize + note.duration) gridSize
      - findClosestGridPoint note.startTime gridSize) gridSize := by
    rcases max_choice (findClosestGridPoint
      (findClosestGridPoint note.startTime gridSize + note.duration) gridSize
      - findClosestGridPoint note.startTime gridSize) gridSize with h | h
    · rw [h]; exact dvd_sub he hs
    · rw [h]
  simp only [quantizeNote]
  rw [findClosestGridPoint_of_dvd _ _ hg hs, findClosestGridPoint_of_dvd _ _ hg (dvd_add hs hd)]
  simp

/-- Claim C28.  For every `gridSize >= 2`, `quantizeSequence` is idempotent (on every sequence,
whatever the sign of the start times and durations of its notes). -/
theorem quantizeSequence_idempotent (sequence : MidiSequence) (gridSize : Int)
    (hg : 2 ≤ gridSize) :
    quantizeSequence (quantizeSequence sequence gridSize) gridSize
      = quantizeSequence sequence gridSize := by
  simp only [quantizeSequence, List.map_map]
  congr 1
  apply List.map_congr_left
  intro note _
  exact quantizeNote_idempotent gridSize hg note

/-- Claim C28 at the sequence `offGridBar` and a grid of 8 ticks. -/
theorem quantizeSequence_idempotent_witness :
    (2 : Int) ≤ 8 ∧
    quantizeSequence (quantizeSequence offGridBar 8) 8 = quantizeSequence offGridBar 8 :=
  ⟨by decide, quantizeSequence_idempotent offGridBar 8 (by decide)⟩

/-- Claim C25 fails on the note `offGridNote` (start 3, duration 9) and a grid of 8 ticks: the
start is snapped to 0 and the end is then taken from the snapped start, `Q (0 + 9) = 8`, so the
output duration is `max (8 - 0) 8 = 8`, whereas the original end tick 12 snaps to 16 and the
claimed duration is `max 8 (16 - 0) = 16`. -/
theorem quantizeSequence_end_not_independent :
    0 ≤ offGridNote.startTime ∧ 0 < offGridNote.duration ∧
    quantizeSequence offGridBar 8 =
      { offGridBar with notes := [{ offGridNote with startTime := 0, duration := 8 }] } ∧
    max 8 (findClosestGridPoint (offGridNote.startTime + offGridNote.duration) 8
      - findClosestGridPoint offGridNote.startTime 8) = 16 := by
  decide

/-- Claim C25, amended.  The output note at each position has the snapped start
`Q startTime` and the duration `max gridSize (Q (Q startTime + duration) - Q startTime)`: the
end tick that is snapped is the one of the note moved to its snapped start.  When the start is
already on the grid (and `gridSize >= 2`) this is the duration
`max gridSize (Q (startTime + duration) - Q startTime)` of the independent snap. -/
theorem quantizeSequence_duration (sequence : MidiSequence) (gridSize : Int) (i : Nat)
    (note : MidiNote) (h : sequence.notes[i]? = some note) :
    ∃ m, (quantizeSequence sequence gridSize).notes[i]? = some m ∧
      m.startTime = findClosestGridPoint note.startTime gridSize ∧
      m.duration = max gridSize
        (findClosestGridPoint (findClosestGridPoint note.startTime gridSize + note.duration)
          gridSize - findClosestGridPoint note.startTime gridSize) ∧
      (2 ≤ gridSize → note.startTime.tmod gridSize = 0 →
        m.duration = max gridSize
          (findClosestGridPoint (note.startTime + note.duration) gridSize
            - findClosestGridPoint note.startTime gridSize)) := by
  refine ⟨quantizeNote gridSize note, by simp [quantizeSequence, h], rfl, max_comm _ _, ?_⟩
  intro hg h0
  have hfix : findClosestGridPoint note.startTime gridSize = note.startTime :=
    findClosestGridPoint_of_dvd _ _ hg (Int.dvd_of_tmod_eq_zero h0)
  simp only [quantizeNote]
  rw [hfix]
  exact max_comm _ _

/-- Claim C25, amended, at the note of `offGridBar` and a grid of 8 ticks. -/
theorem quantizeSequence_duration_witness :
    offGridBar.notes[0]? = some offGridNote ∧
    ∃ m, (quantizeSequence offGridBar 8).notes[0]? = some m ∧
      m.startTime = findClosestGridPoint offGridNote.startTime 8 ∧
      m.duration = max 8
        (findClosestGridPoint (findClosestGridPoint offGridNote.startTime 8
          + offGridNote.duration) 8 - findClosestGridPoint offGridNote.startTime 8) ∧
      (2 ≤ (8 : Int) → offGridNote.startTime.tmod 8 = 0 →
        m.duration = max 8
          (findClosestGridPoint (offGridNote.startTime + offGridNote.duration) 8
            - findClosestGridPoint offGridNote.startTime 8)) :=
  ⟨rfl, quantizeSequence_duration offGridBar 8 0 offGridNote rfl⟩

end MidiUtils
end Impl

/-! ### Temperature and swing (claims C23, C26) -/

namespace Ai

/-- Claim C23 fails at `-1` and at `2`.  On both models `setTemperature t` stores
`max 0.0001 (min 2 t)`, the clamp to `[0.0001, 2]`: after `setTemperature (-1)` the temperature
is `0.0001`, not `0`, and after `setTemperature 2` it is `2`, not `1`; only `0.5` is stored as
the claim says. -/
theorem setTemperature_clamps_to_wider_range (m : MusicVAEModel) (g : GrooVAEModel) :
    (∀ t : ℚ, (m.setTemperature t).getTemperature = max (1 / 10000) (min 2 t)) ∧
    (∀ t : ℚ, (g.setTemperature t).getTemperature = max (1 / 10000) (min 2 t)) ∧
    (m.setTemperature (-1)).getTemperature = 1 / 10000 ∧
    (m.setTemperature (-1)).getTemperature ≠ min 1 (max 0 (-1)) ∧
    (m.setTemperature 2).getTemperature = 2 ∧
    (m.setTemperature 2).getTemperature ≠ min 1 (max 0 2) ∧
    (m.setTemperature (1 / 2)).getTemperature = 1 / 2 ∧
    (g.setTemperature (-1)).getTemperature = 1 / 10000 ∧
    (g.setTemperature (-1)).getTemperature ≠ min 1 (max 0 (-1)) ∧
    (g.setTemperature 2).getTemperature = 2 ∧
    (g.setTemperature 2).getTemperature ≠ min 1 (max 0 2) ∧
    (g.setTemperature (1 / 2)).getTemperature = 1 / 2 := by
  refine ⟨fun t => rfl, fun t => rfl, ?_, ?_, ?_, ?_, ?_, ?_, ?_, ?_, ?_, ?_⟩ <;>
    simp only [MusicVAEModel.setTemperature, MusicVAEModel.getTemperature,
      GrooVAEModel.setTemperature, GrooVAEModel.getTemperature] <;>
    norm_num

namespace GrooVAEEffect

end GrooVAEEffect
end Ai

/-! ### The sums of the histograms -/

namespace Ai
namespace MidiUtils

section
variable {K : Type} [LinearOrderedField K]

theorem sum_modify_succ : ∀ (n : Nat) (l : List Int), n < l.length →
    (l.modify (fun count => count + 1) n).sum = l.sum + 1 := by
  intro n
  induction n with
  | zero =>
    intro l hl
    cases l with
    | nil => simp at hl
    | cons a rest => simp only [List.modify_zero_cons, List.sum_cons]; omega
  | succ n ih =>
    intro l hl
    cases l with
    | nil => simp at hl
    | cons a rest =>
      simp only [List.modify_succ_cons, List.sum_cons]
      rw [ih rest (by simpa using hl)]
      omega

theorem sum_increment (h : List Int) (bin : Int) (h0 : 0 ≤ bin) (h1 : bin < h.length) :
    (increment h bin).sum = h.sum + 1 :=
  sum_modify_succ _ _ (by omega)

theorem histogram_sums_foldl (totalTicks : Int) (notes : List MidiNote)
    (hp : ∀ n ∈ notes, 0 ≤ n.pitch ∧ n.pitch ≤ 127) :
    ∀ h, HistogramsOk h →
      (notes.foldl (countNote totalTicks) h).pitchHistogram.sum
        = h.pitchHistogram.sum + notes.length ∧
      (notes.foldl (countNote totalTicks) h).rhythmHistogram.sum
        = h.rhythmHistogram.sum + notes.length ∧
      (notes.foldl (countNote totalTicks) h).velocityHistogram.sum
        = h.velocityHistogram.sum + notes.length := by
  induction notes with
  | nil => intro h _; simp
  | cons n rest ih =>
    intro h hh
    have hok : HistogramsOk (countNote totalTicks h n) := histogramsOk_foldl totalTicks [n] h hh
    obtain ⟨i1, i2, i3⟩ := ih (fun m hm => hp m (List.mem_cons_of_mem _ hm)) _ hok
    obtain ⟨l1, l2, l3, _, _, _⟩ := hh
    have hpn := hp n (List.mem_cons_self _ _)
    rw [List.foldl_cons, i1, i2, i3]
    simp only [countNote, List.length_cons, Nat.cast_add, Nat.cast_one]
    rw [sum_increment _ _ hpn.1 (by omega), sum_increment _ _ (by omega) (by omega),
      sum_increment _ _ (by omega) (by omega)]
    omega

theorem histogram_sums (s : MidiSequence)
    (hp : ∀ n ∈ s.notes, 0 ≤ n.pitch ∧ n.pitch ≤ 127) :
    (histograms s).pitchHistogram.sum = s.notes.length ∧
    (histograms s).rhythmHistogram.sum = s.notes.length ∧
    (histograms s).velocityHistogram.sum = s.notes.length := by
  obtain ⟨s1, s2, s3⟩ := histogram_sums_foldl s.totalTicks s.notes hp
    { pitchHistogram := List.replicate 128 0, rhythmHistogram := List.replicate 16 0,
      velocityHistogram := List.replicate 16 0 }
    (by
      refine ⟨by simp, by simp, by simp, ?_, ?_, ?_⟩ <;>
        (intro c hc; rw [(List.mem_replicate.mp hc).2]))
  simp only [List.sum_replicate, smul_zero, zero_add] at s1 s2 s3
  exact ⟨s1, s2, s3⟩

end

end MidiUtils
end Ai

/-! ### Model server: the listing of the resident models, unknown keys and the mutex
(claims C22, C24, C29, C30) -/

namespace ModelServer
variable {H : Type}

theorem lookupLoaded_of_catalog (availableModels : List (ModelKey × ModelMetadata)) :
    ∀ (l : List (ModelKey × H)),
      (∀ key ∈ l.map Prod.fst, mapFind availableModels key ≠ none) →
      ∃ models, lookupLoaded availableModels l = some models ∧ models.length = l.length := by
  intro l
  induction l with
  | nil => intro _; exact ⟨[], rfl, rfl⟩
  | cons p rest ih =>
    intro h
    obtain ⟨models, hm, hl⟩ := ih (fun key hkey => h key (by simp at hkey ⊢; exact Or.inr hkey))
    have hp : mapFind availableModels p.1 ≠ none := h p.1 (by simp)
    obtain ⟨metadata, hmeta⟩ := Option.ne_none_iff_exists'.mp hp
    exact ⟨metadata :: models, by simp [lookupLoaded, hmeta, hm], by simp [hl]⟩

/-- Claim C29.  In every state the public operations produce, every resident key is a catalog
key, and `getLoadedModels` returns a vector (no `m_availableModels.at(key)` throws) with one
entry per resident model. -/
theorem getLoadedModels_never_throws (env : ModelEnv H) (table : List ModelMetadata)
    (s : ModelServer H) (hs : PublicReachable env table s) :
    (∀ key ∈ s.loadedModels.map Prod.fst, mapFind s.availableModels key ≠ none) ∧
    ∃ models, getLoadedModels s = some models ∧ models.length = s.loadedModels.length :=
  ⟨(coherent_of_publicReachable env table s hs).2.1,
    lookupLoaded_of_catalog s.availableModels s.loadedModels
      (coherent_of_publicReachable env table s hs).2.1⟩

/-- Claim C29 at the server `unlimitedTwo` (MusicVAE and GrooVAE resident). -/
theorem getLoadedModels_never_throws_witness :
    PublicReachable sourceEnv placeholderModels unlimitedTwo ∧
    (∀ key ∈ unlimitedTwo.loadedModels.map Prod.fst,
      mapFind unlimitedTwo.availableModels key ≠ none) ∧
    ∃ models, getLoadedModels unlimitedTwo = some models ∧
      models.length = unlimitedTwo.loadedModels.length :=
  ⟨PublicReachable.load _ _ _ (PublicReachable.load _ _ _
      (PublicReachable.init _ _ _ _ _ PublicReachable.construct)),
    getLoadedModels_never_throws sourceEnv placeholderModels unlimitedTwo
      (PublicReachable.load _ _ _ (PublicReachable.load _ _ _
        (PublicReachable.init _ _ _ _ _ PublicReachable.construct)))⟩

/-- Claim C24 fails.  On an initialized server (any state the public operations produce),
`unloadModel` for a key that is not in the catalog, hence not resident either, returns true,
not false, and leaves the state as it is. -/
theorem unloadModel_unknown_key_returns_true (env : ModelEnv H) (table : List ModelMetadata)
    (s : ModelServer H) (hs : PublicReachable env table s) (hinit : s.isInitialized = true)
    (type : ModelType) (modelName : String)
    (hkey : mapFind s.availableModels (type, modelName) = none) :
    mapFind s.loadedModels (type, modelName) = none ∧
    unloadModel s type modelName = (s, true) ∧ (unloadModel s type modelName).2 ≠ false := by
  have hc := coherent_of_publicReachable env table s hs
  have hnone : mapFind s.loadedModels (type, modelName) = none := by
    rw [mapFind_eq_none]
    intro hmem
    exact hc.2.1 _ hmem hkey
  have hu : unloadModel s type modelName = (s, true) := by
    simp [unloadModel, hinit, hnone]
  exact ⟨hnone, hu, by rw [hu]; simp⟩

/-- Claim C24 fails at the server of the unit test `ErrorHandling` and the key
`(MusicVAE, "non_existent_model")`: the call returns true where the test expects false. -/
theorem unloadModel_unknown_key_returns_true_witness :
    PublicReachable sourceEnv placeholderModels modelLoadingStart ∧
    modelLoadingStart.isInitialized = true ∧
    mapFind modelLoadingStart.availableModels (.MusicVAE, "non_existent_model") = none ∧
    mapFind modelLoadingStart.loadedModels (.MusicVAE, "non_existent_model") = none ∧
    unloadModel modelLoadingStart .MusicVAE "non_existent_model" = (modelLoadingStart, true) ∧
    (unloadModel modelLoadingStart .MusicVAE "non_existent_model").2 ≠ false :=
  ⟨PublicReachable.init _ _ _ _ _ PublicReachable.construct, by decide, by decide,
    unloadModel_unknown_key_returns_true sourceEnv placeholderModels modelLoadingStart
      (PublicReachable.init _ _ _ _ _ PublicReachable.construct) (by decide)
      .MusicVAE "non_existent_model" (by decide)⟩

end ModelServer

namespace ModelServer
variable {H : Type}

theorem mem_mapAssign {V : Type} (key : ModelKey) (v : V) :
    ∀ (l : List (ModelKey × V)) (p : ModelKey × V), p ∈ mapAssign key v l →
      p = (key, v) ∨ p ∈ l := by
  intro l
  induction l with
  | nil => intro p hp; simpa [mapAssign] using hp
  | cons q rest ih =>
    intro p hp
    unfold mapAssign at hp
    split at hp
    · simp only [List.mem_cons] at hp ⊢
      rcases hp with h | h
      · exact Or.inl h
      · exact Or.inr (Or.inr h)
    · split at hp
      · simpa only [List.mem_cons] using hp
      · simp only [List.mem_cons] at hp ⊢
        rcases hp with h | h
        · exact Or.inr (Or.inl h)
        · rcases ih p h with h1 | h1
          · exact Or.inl h1
          · exact Or.inr (Or.inr h1)

theorem mapFind_mem {V : Type} (l : List (ModelKey × V)) (key : ModelKey) (v : V)
    (h : mapFind l key = some v) : (key, v) ∈ l := by
  simp only [mapFind, Option.map_eq_some'] at h
  obtain ⟨p, hp, rfl⟩ := h
  have h1 := List.find?_some hp
  have h2 := List.mem_of_find?_eq_some hp
  have h3 : p.1 = key := by simpa using h1
  rw [← h3]
  exact h2

theorem loadModel_availableModels (env : ModelEnv H) (s : ModelServer H) (type : ModelType)
    (modelName : String) : (loadModel env s type modelName).1.availableModels
      = s.availableModels := by
  unfold loadModel
  by_cases hinit : s.isInitialized = true
  · simp only [hinit, Bool.not_true, Bool.false_eq_true, ↓reduceIte]
    split
    · rfl
    · split
      · rfl
      · by_cases hmax : s.maxMemoryUsage > 0
        · simp only [hmax, ↓reduceIte, notify]
          exact (unloadModelsIfNeeded_frame env s _).2.1
        · simp only [hmax, ↓reduceIte, notify]
  · simp [hinit]

theorem getModel_availableModels (env : ModelEnv H) (s : ModelServer H) (type : ModelType)
    (modelName : String) : (getModel env s type modelName).1.availableModels
      = s.availableModels := by
  have hl := loadModel_availableModels env s type modelName
  unfold getModel
  by_cases h1 : s.isInitialized = true
  · by_cases h2 : (mapFind s.loadedModels (type, modelName)).isNone = true
    · by_cases h3 : (loadModel env s type modelName).2 = true
      · simpa [h1, h2, h3] using hl
      · simpa [h1, h2, h3] using hl
    · simp [h1, h2]
  · simp [h1]

theorem setMaxMemoryUsage_availableModels (env : ModelEnv H) (s : ModelServer H)
    (maxMemoryUsage : Nat) : (setMaxMemoryUsage env s maxMemoryUsage).availableModels
      = s.availableModels := by
  have h1 := (unloadModelsIfNeeded_frame env { s with maxMemoryUsage := maxMemoryUsage } 0).2.1
  unfold setMaxMemoryUsage
  by_cases ha : maxMemoryUsage > 0
  · by_cases hb : getTotalMemoryUsage env { s with maxMemoryUsage := maxMemoryUsage }
        > maxMemoryUsage
    · simpa [ha, hb] using h1
    · simp [ha, hb]
  · simp [ha]

theorem catalogKeysUnnamed_of_publicReachable (env : ModelEnv H) (s : ModelServer H)
    (hs : PublicReachable env placeholderModels s) : CatalogKeysUnnamed s := by
  induction hs with
  | construct => intro p hp; simp at hp
  | init s d dir m g _ ih =>
    unfold initializeServer
    by_cases h1 : s.isInitialized = true
    · simpa [h1] using ih
    · by_cases h2 : d = true
      · simp only [h1, h2, Bool.not_true, Bool.false_eq_true, ↓reduceIte, scanForModels,
          placeholderModels, List.foldl_cons, List.foldl_nil]
        intro p hp
        simp only at hp
        rcases mem_mapAssign _ _ _ p hp with h | hp
        · rw [h]; exact ⟨rfl, by decide⟩
        · rcases mem_mapAssign _ _ _ p hp with h | hp
          · rw [h]; exact ⟨rfl, by decide⟩
          · rcases mem_mapAssign _ _ _ p hp with h | hp
            · rw [h]; exact ⟨rfl, by decide⟩
            · exact ih p hp
      · simpa [h1, h2] using ih
  | load s type modelName _ ih =>
    intro p hp; rw [loadModel_availableModels] at hp; exact ih p hp
  | get s type modelName _ ih =>
    intro p hp; rw [getModel_availableModels] at hp; exact ih p hp
  | unload s type modelName _ ih =>
    intro p hp; rw [(unloadModel_frame s type modelName).2.1] at hp; exact ih p hp
  | setMax s m _ ih =>
    intro p hp; rw [setMaxMemoryUsage_availableModels] at hp; exact ih p hp
  | gpu s e _ ih => exact ih
  | register s _ ih => exact ih
  | unregister s c _ ih => exact ih

theorem lookupLoaded_mem (availableModels : List (ModelKey × ModelMetadata)) :
    ∀ (l : List (ModelKey × H)) (models : List ModelMetadata),
      lookupLoaded availableModels l = some models →
      ∀ m ∈ models, ∃ p ∈ availableModels, p.2 = m := by
  intro l
  induction l with
  | nil =>
    intro models h m hm
    simp only [lookupLoaded, Option.some.injEq] at h
    rw [← h] at hm; simp at hm
  | cons q rest ih =>
    intro models h m hm
    unfold lookupLoaded at h
    split at h
    · exact absurd h (by simp)
    · rename_i metadata hmeta
      split at h
      · exact absurd h (by simp)
      · rename_i tail htail
        simp only [Option.some.injEq] at h
        rw [← h] at hm
        rcases List.mem_cons.mp hm with h1 | h1
        · exact ⟨(q.1, metadata), mapFind_mem _ _ _ hmeta, h1.symm⟩
        · exact ih tail htail m h1

theorem foldl_unloadModel_fixed (s : ModelServer H) :
    ∀ (l : List ModelMetadata), (∀ m ∈ l, (unloadModel s m.type m.name).1 = s) →
      unloadReported s l = s := by
  intro l
  induction l with
  | nil => intro _; rfl
  | cons m rest ih =>
    intro h
    have hm := h m (List.mem_cons_self _ _)
    have hr := ih (fun x hx => h x (List.mem_cons_of_mem _ hx))
    unfold unloadReported at hr ⊢
    rw [List.foldl_cons, hm]
    exact hr

/-- Claim C22 fails in every state of a server over the table of `scanForModels`.  The catalog
keys carry the empty name while the metadata that `getLoadedModels` reports carry the names
"MusicVAE", "GrooVAE", "MelodyRNN": for every reported model `m`, the key
`(m.type, m.name)` is not resident, `unloadModel (m.type, m.name)` removes nothing, and after
unloading every reported model by its reported type and name the server is in the same state
and `getLoadedModels` reports the same models. -/
theorem unloadReported_unloads_nothing (env : ModelEnv H) (s : ModelServer H)
    (hs : PublicReachable env placeholderModels s) (models : List ModelMetadata)
    (hm : getLoadedModels s = some models) :
    (∀ m ∈ models, mapFind s.loadedModels (m.type, m.name) = none ∧
      (unloadModel s m.type m.name).1 = s) ∧
    unloadReported s models = s ∧
    getLoadedModels (unloadReported s models) = some models := by
  have hc := coherent_of_publicReachable env placeholderModels s hs
  have hu := catalogKeysUnnamed_of_publicReachable env s hs
  have hall : ∀ m ∈ models, mapFind s.loadedModels (m.type, m.name) = none ∧
      (unloadModel s m.type m.name).1 = s := by
    intro m hmem
    obtain ⟨p, hp, hpm⟩ := lookupLoaded_mem s.availableModels s.loadedModels models hm m hmem
    have hname : m.name ≠ "" := by rw [← hpm]; exact (hu p hp).2
    have hnone : mapFind s.loadedModels (m.type, m.name) = none := by
      rw [mapFind_eq_none]
      intro hres
      obtain ⟨metadata, hmeta⟩ := Option.ne_none_iff_exists'.mp (hc.2.1 _ hres)
      exact hname (hu _ (mapFind_mem _ _ _ hmeta)).1
    refine ⟨hnone, ?_⟩
    unfold unloadModel
    by_cases hinit : s.isInitialized = true
    · simp [hinit, hnone]
    · simp [hinit]
  have hfix := foldl_unloadModel_fixed s models (fun m hmem => (hall m hmem).2)
  exact ⟨hall, hfix, by rw [hfix]; exact hm⟩

/-- Claim C22 fails at a server without a memory limit after `loadModel(MusicVAE, "")`:
`getLoadedModels` reports the MusicVAE entry, and it still does after the loop of
`TearDown`. -/
theorem unloadReported_unloads_nothing_witness :
    PublicReachable sourceEnv placeholderModels unlimitedOne ∧
    getLoadedModels unlimitedOne = some [musicVAE] ∧
    (∀ m ∈ [musicVAE], mapFind unlimitedOne.loadedModels (m.type, m.name) = none ∧
      (unloadModel unlimitedOne m.type m.name).1 = unlimitedOne) ∧
    unloadReported unlimitedOne [musicVAE] = unlimitedOne ∧
    getLoadedModels (unloadReported unlimitedOne [musicVAE]) = some [musicVAE] :=
  ⟨PublicReachable.load _ _ _ (PublicReachable.init _ _ _ _ _ PublicReachable.construct),
    by decide,
    unloadReported_unloads_nothing sourceEnv unlimitedOne
      (PublicReachable.load _ _ _ (PublicReachable.init _ _ _ _ _ PublicReachable.construct))
      [musicVAE] (by decide)⟩

end ModelServer

namespace ModelServer
namespace Locking
variable {H : Type}

theorem unloadModelsIfNeeded_held (env : ModelEnv H) (s : ModelServer H)
    (requiredMemory : Nat) : unloadModelsIfNeeded env true s requiredMemory = none := by
  simp [unloadModelsIfNeeded, getTotalMemoryUsage, lockGuard]

theorem loadModel_held (env : ModelEnv H) (s : ModelServer H) (type : ModelType)
    (modelName : String) : loadModel env true s type modelName = none := by
  simp [loadModel, lockGuard]

theorem unloadModel_free (s : ModelServer H) (type : ModelType) (modelName : String) :
    unloadModel false s type modelName = some (ModelServer.unloadModel s type modelName) := by
  unfold unloadModel ModelServer.unloadModel
  by_cases h1 : s.isInitialized = true <;>
    by_cases h2 : (mapFind s.loadedModels (type, modelName)).isNone = true <;>
    simp [lockGuard, h1, h2]

theorem loadModel_unlimited (env : ModelEnv H) (s : ModelServer H) (type : ModelType)
    (modelName : String) (h : s.maxMemoryUsage = 0) :
    loadModel env false s type modelName
      = some (ModelServer.loadModel env s type modelName) := by
  unfold loadModel ModelServer.loadModel
  by_cases h1 : s.isInitialized = true
  · by_cases h2 : (mapFind s.loadedModels (type, modelName)).isSome = true
    · simp [lockGuard, h1, h2]
    · cases h3 : mapFind s.availableModels (type, modelName) <;>
        simp [lockGuard, h1, h2, h3, h]
  · simp [lockGuard, h1]

/-- Claim C30 fails.  With the mutex free at the call, on an initialized server and for a
catalog key that is not resident: `getModel` holds the mutex when it calls `loadModel`, whose
`lock_guard` then locks the held mutex; `loadModel` under a positive limit holds the mutex
when `unloadModelsIfNeeded` calls `getTotalMemoryUsage`, whose `lock_guard` locks the held
mutex; and `setMaxMemoryUsage` with a positive limit holds the mutex when it calls
`getTotalMemoryUsage`.  None of the three calls completes. -/
theorem public_operations_relock_mutex (env : ModelEnv H) (s : ModelServer H)
    (type : ModelType) (modelName : String) (metadata : ModelMetadata) (limit : Nat)
    (hinit : s.isInitialized = true)
    (hres : mapFind s.loadedModels (type, modelName) = none)
    (hav : mapFind s.availableModels (type, modelName) = some metadata)
    (hmax : 0 < s.maxMemoryUsage) (hlimit : 0 < limit) :
    getModel env false s type modelName = none ∧
    loadModel env false s type modelName = none ∧
    setMaxMemoryUsage env false s limit = none := by
  refine ⟨?_, ?_, ?_⟩
  · simp [getModel, lockGuard, hinit, hres, loadModel_held]
  · simp [loadModel, lockGuard, hinit, hres, hav, hmax, unloadModelsIfNeeded_held]
  · simp [setMaxMemoryUsage, lockGuard, hlimit, getTotalMemoryUsage]

/-- Claim C30 fails at the server of the unit test `ModelLoading` (limit 1GB) and the key of
MusicVAE: `getModel`, `loadModel` and `setMaxMemoryUsage(1)` all lock the mutex they hold. -/
theorem public_operations_relock_mutex_witness :
    modelLoadingStart.isInitialized = true ∧
    mapFind modelLoadingStart.loadedModels (.MusicVAE, "") = none ∧
    mapFind modelLoadingStart.availableModels (.MusicVAE, "") = some musicVAE ∧
    0 < modelLoadingStart.maxMemoryUsage ∧
    getModel sourceEnv false modelLoadingStart .MusicVAE "" = none ∧
    loadModel sourceEnv false modelLoadingStart .MusicVAE "" = none ∧
    setMaxMemoryUsage sourceEnv false modelLoadingStart 1 = none :=
  ⟨by decide, by decide, by decide, by decide,
    public_operations_relock_mutex sourceEnv modelLoadingStart .MusicVAE "" musicVAE 1
      (by decide) (by decide) (by decide) (by decide) (by decide)⟩

theorem getTotalMemoryUsage_held (env : ModelEnv H) (s : ModelServer H) :
    getTotalMemoryUsage env true s = none := by
  simp [getTotalMemoryUsage, lockGuard]

theorem loadModel_completes (env : ModelEnv H) (s : ModelServer H) (type : ModelType)
    (modelName : String) (r : ModelServer H × Bool)
    (h : loadModel env false s type modelName = some r) :
    r = ModelServer.loadModel env s type modelName ∧
    (r.1 = s ∨ (s.maxMemoryUsage = 0 ∧ s.isInitialized = true ∧
      mapFind s.loadedModels (type, modelName) = none)) := by
  unfold loadModel at h
  unfold ModelServer.loadModel
  by_cases h1 : s.isInitialized = true
  · by_cases h2 : (mapFind s.loadedModels (type, modelName)).isSome = true
    · simp only [lockGuard, h1, h2, Bool.false_eq_true, ↓reduceIte, Bool.not_true,
        Option.some.injEq] at h ⊢
      exact ⟨h.symm, Or.inl (by rw [← h])⟩
    · have hnone : mapFind s.loadedModels (type, modelName) = none := by simpa using h2
      cases h3 : mapFind s.availableModels (type, modelName) with
      | none =>
        simp only [lockGuard, h1, h2, h3, Bool.false_eq_true, ↓reduceIte, Bool.not_true,
          Option.some.injEq] at h ⊢
        exact ⟨h.symm, Or.inl (by rw [← h])⟩
      | some metadata =>
        by_cases hmax : s.maxMemoryUsage > 0
        · simp [lockGuard, h1, h2, h3, hmax, unloadModelsIfNeeded, getTotalMemoryUsage] at h
        · simp only [lockGuard, h1, h2, h3, hmax, Bool.false_eq_true, ↓reduceIte,
            Bool.not_true, Option.some.injEq] at h ⊢
          exact ⟨h.symm, Or.inr ⟨by omega, by simp [h1], by simpa using hnone⟩⟩
  · simp only [lockGuard, h1, Bool.false_eq_true, ↓reduceIte, Bool.not_false,
      Option.some.injEq] at h ⊢
    exact ⟨h.symm, Or.inl (by rw [← h])⟩

theorem getModel_completes (env : ModelEnv H) (s : ModelServer H) (type : ModelType)
    (modelName : String) (r : ModelServer H × H)
    (h : getModel env false s type modelName = some r) :
    r = ModelServer.getModel env s type modelName ∧ r.1 = s := by
  unfold getModel at h
  unfold ModelServer.getModel
  by_cases h1 : s.isInitialized = true
  · by_cases h2 : (mapFind s.loadedModels (type, modelName)).isNone = true
    · simp [lockGuard, h1, h2, loadModel] at h
    · simp only [lockGuard, h1, h2, Bool.false_eq_true, ↓reduceIte, Bool.not_true,
        Option.some.injEq] at h ⊢
      exact ⟨h.symm, by rw [← h]⟩
  · simp only [lockGuard, h1, Bool.false_eq_true, ↓reduceIte, Bool.not_false,
      Option.some.injEq] at h ⊢
    exact ⟨h.symm, by rw [← h]⟩

theorem setMaxMemoryUsage_completes (env : ModelEnv H) (s : ModelServer H)
    (maxMemoryUsage : Nat) (r : ModelServer H)
    (h : setMaxMemoryUsage env false s maxMemoryUsage = some r) :
    maxMemoryUsage = 0 ∧ r = { s with maxMemoryUsage := 0 } ∧
    r = ModelServer.setMaxMemoryUsage env s maxMemoryUsage := by
  unfold setMaxMemoryUsage at h
  by_cases hb : maxMemoryUsage > 0
  · simp [lockGuard, hb, getTotalMemoryUsage] at h
  · have h0 : maxMemoryUsage = 0 := by omega
    subst h0
    simp only [lockGuard, Bool.false_eq_true, ↓reduceIte, gt_iff_lt, lt_self_iff_false,
      Option.some.injEq] at h
    exact ⟨rfl, h.symm, by rw [← h]; simp [ModelServer.setMaxMemoryUsage]⟩

/-- The states reached through calls that return are among the states of the lock-free
transformers. -/
theorem publicReachable_of_completed (env : ModelEnv H) (table : List ModelMetadata)
    (s : ModelServer H) (hs : Completed env table s) : PublicReachable env table s := by
  induction hs with
  | construct => exact PublicReachable.construct
  | init s d dir m g _ ih => exact PublicReachable.init s d dir m g ih
  | load s type modelName r _ h ih =>
    rw [(loadModel_completes env s type modelName r h).1]
    exact PublicReachable.load s type modelName ih
  | get s type modelName r _ h ih =>
    rw [(getModel_completes env s type modelName r h).1]
    exact PublicReachable.get s type modelName ih
  | unload s type modelName r _ h ih =>
    rw [unloadModel_free] at h
    rw [← Option.some.inj h]
    exact PublicReachable.unload s type modelName ih
  | setMax s m r _ h ih =>
    rw [(setMaxMemoryUsage_completes env s m r h).2.2]
    exact PublicReachable.setMax s m ih
  | gpu s e _ ih => exact PublicReachable.gpu s e ih
  | register s _ ih => exact PublicReachable.register s ih
  | unregister s c _ ih => exact PublicReachable.unregister s c ih

theorem loadedModels_nil_of_completed (env : ModelEnv H) (table : List ModelMetadata)
    (s : ModelServer H) (hs : Completed env table s) (hmax : 0 < s.maxMemoryUsage) :
    s.loadedModels = [] := by
  induction hs with
  | construct => rfl
  | init s d dir m g hs0 ih =>
    have hc := coherent_of_publicReachable env table s
      (publicReachable_of_completed env table s hs0)
    unfold initializeServer at hmax ⊢
    by_cases h1 : s.isInitialized = true
    · simp only [h1, ↓reduceIte] at hmax ⊢
      exact ih hmax
    · by_cases h2 : d = true
      · have hl : s.loadedModels = [] := hc.2.2 (by simpa using h1)
        simp [h1, h2, scanForModels, hl]
      · simp only [h1, h2, Bool.false_eq_true, ↓reduceIte, Bool.not_false] at hmax ⊢
        exact ih hmax
  | load s type modelName r _ h ih =>
    obtain ⟨hr, hcase⟩ := loadModel_completes env s type modelName r h
    rcases hcase with h1 | ⟨h0, _, _⟩
    · rw [h1] at hmax ⊢; exact ih hmax
    · exfalso
      have hm : r.1.maxMemoryUsage = s.maxMemoryUsage := by
        rw [hr]
        unfold ModelServer.loadModel
        by_cases h1 : s.isInitialized = true
        · by_cases h2 : (mapFind s.loadedModels (type, modelName)).isSome = true
          · simp [h1, h2]
          · cases h3 : mapFind s.availableModels (type, modelName) <;>
              simp [h1, h2, h3, h0, notify]
        · simp [h1]
      omega
  | get s type modelName r _ h ih =>
    obtain ⟨_, h1⟩ := getModel_completes env s type modelName r h
    rw [h1] at hmax ⊢; exact ih hmax
  | unload s type modelName r _ h ih =>
    rw [unloadModel_free] at h
    have hr := Option.some.inj h
    obtain ⟨f1, _, f3⟩ := unloadModel_frame s type modelName
    rw [← hr] at hmax ⊢
    rw [f3] at hmax
    have := ih hmax
    rw [this] at f1
    exact List.sublist_nil.mp f1
  | setMax s m r _ h ih =>
    obtain ⟨_, hr, _⟩ := setMaxMemoryUsage_completes env s m r h
    rw [hr] at hmax
    exact absurd hmax (by simp)
  | gpu s e _ ih => exact ih hmax
  | register s _ ih => exact ih hmax
  | unregister s c _ ih => exact ih hmax

theorem loadModel_relocks (env : ModelEnv H) (s : ModelServer H) (type : ModelType)
    (modelName : String) (metadata : ModelMetadata) (hinit : s.isInitialized = true)
    (hmax : 0 < s.maxMemoryUsage) (hres : mapFind s.loadedModels (type, modelName) = none)
    (hav : mapFind s.availableModels (type, modelName) = some metadata) :
    loadModel env false s type modelName = none := by
  simp [loadModel, lockGuard, hinit, hres, hav, hmax, unloadModelsIfNeeded_held]

theorem mem_mapAssign_of_mem {V : Type} (key : ModelKey) (v : V) (l : List (ModelKey × V))
    (hkey : key ∉ l.map Prod.fst) (p : ModelKey × V) (hp : p ∈ l) : p ∈ mapAssign key v l :=
  (mapAssign_perm key v l hkey).symm.subset (List.mem_cons_of_mem _ hp)

/-- Claim C4 fails: no `loadModel` ever evicts.  A `loadModel` that has work to do under a
positive limit (an initialized server, a catalog key that is not resident) reaches
`unloadModelsIfNeeded` holding the mutex and does not return, whatever is resident and
whichever key was accessed last.  A `loadModel` that returns leaves every resident entry
resident and adds to the log of callback invocations nothing but load notifications. -/
theorem loadModel_never_evicts (env : ModelEnv H) (s : ModelServer H) (type : ModelType)
    (modelName : String) :
    (∀ metadata, s.isInitialized = true → mapFind s.loadedModels (type, modelName) = none →
      mapFind s.availableModels (type, modelName) = some metadata → 0 < s.maxMemoryUsage →
      loadModel env false s type modelName = none) ∧
    (∀ r, loadModel env false s type modelName = some r →
      (∀ p ∈ s.loadedModels, p ∈ r.1.loadedModels) ∧
      (∀ n ∈ r.1.notifications, n ∈ s.notifications ∨ n.loaded = true)) := by
  constructor
  · intro metadata hinit hres hav hmax
    exact loadModel_relocks env s type modelName metadata hinit hmax hres hav
  · intro r h
    obtain ⟨hr, hcase⟩ := loadModel_completes env s type modelName r h
    rcases hcase with h1 | ⟨h0, hinit, hres⟩
    · rw [h1]
      exact ⟨fun p hp => hp, fun n hn => Or.inl hn⟩
    · rw [hr]
      cases hav : mapFind s.availableModels (type, modelName) with
      | none =>
        simp only [ModelServer.loadModel, hinit, hres, hav, Bool.not_true, Bool.false_eq_true,
          ↓reduceIte, Option.isSome_none]
        exact ⟨fun p hp => hp, fun n hn => Or.inl hn⟩
      | some metadata =>
        simp only [ModelServer.loadModel, hinit, hres, hav, h0, Bool.not_true,
          Bool.false_eq_true, ↓reduceIte, Option.isSome_none, gt_iff_lt, lt_self_iff_false,
          notify]
        refine ⟨fun p hp => mem_mapAssign_of_mem _ _ _
          ((mapFind_eq_none s.loadedModels (type, modelName)).mp hres) p hp, ?_⟩
        intro n hn
        simp only [List.mem_append, List.mem_map] at hn
        rcases hn with hn | ⟨id, _, rfl⟩
        · exact Or.inl hn
        · exact Or.inr rfl

/-- Claim C4 fails on the scenario itself, with the catalog of the source (MusicVAE 100MB,
GrooVAE 50MB, MelodyRNN 30MB) and a limit of 150MB.  After `initialize` the first call,
`loadModel(MusicVAE, "")`, does not return, so the two models never become resident; and in
the state `twoResident`, were the server in it, `loadModel(MelodyRNN, "")` does not return
either and unloads neither of the two. -/
theorem loadModel_never_evicts_witness :
    Completed sourceEnv placeholderModels evictionStart ∧
    loadModel sourceEnv false evictionStart .MusicVAE "" = none ∧
    loadModel sourceEnv false twoResident .MelodyRNN "" = none :=
  ⟨Completed.init _ _ _ _ _ Completed.construct,
    (loadModel_never_evicts sourceEnv evictionStart .MusicVAE "").1 musicVAE
      (by decide) (by decide) (by decide) (by decide),
    (loadModel_never_evicts sourceEnv twoResident .MelodyRNN "").1 melodyRNN
      (by decide) (by decide) (by decide) (by decide)⟩

/-- Claim C5 fails without a memory limit.  On an initialized server with limit 0 and for a
catalog key that is not resident, `loadModel` returns true, and the `getModel` that follows
returns the null pointer: the creation step of the source stores the never-assigned
`std::shared_ptr<Model> model`.  (Under a positive limit the same `loadModel` does not
return.) -/
theorem getModel_after_loadModel_is_null (null : H) (getMemoryUsage : H → Nat)
    (s : ModelServer H) (type : ModelType) (modelName : String) (metadata : ModelMetadata)
    (hinit : s.isInitialized = true) (hmax : s.maxMemoryUsage = 0)
    (hres : mapFind s.loadedModels (type, modelName) = none)
    (hav : mapFind s.availableModels (type, modelName) = some metadata) :
    ∃ s1, loadModel (placeholderEnv null getMemoryUsage) false s type modelName
        = some (s1, true) ∧
      getModel (placeholderEnv null getMemoryUsage) false s1 type modelName
        = some (s1, null) := by
  refine ⟨notify { s with loadedModels := mapAssign (type, modelName) null s.loadedModels }
    type modelName true, ?_, ?_⟩
  · simp [loadModel, lockGuard, hinit, hres, hav, hmax, placeholderEnv]
  · simp [getModel, lockGuard, hinit, notify, mapFind_mapAssign, placeholderEnv]

/-- Claim C5 fails at the server `unlimitedStart` and the key of MusicVAE: `loadModel` returns
true and `getModel` then returns the null pointer. -/
theorem getModel_after_loadModel_is_null_witness :
    Completed sourceEnv placeholderModels unlimitedStart ∧
    unlimitedStart.isInitialized = true ∧ unlimitedStart.maxMemoryUsage = 0 ∧
    mapFind unlimitedStart.loadedModels (.MusicVAE, "") = none ∧
    mapFind unlimitedStart.availableModels (.MusicVAE, "") = some musicVAE ∧
    ∃ s1, loadModel sourceEnv false unlimitedStart .MusicVAE "" = some (s1, true) ∧
      getModel sourceEnv false s1 .MusicVAE "" = some (s1, none) :=
  ⟨Completed.init _ _ _ _ _ Completed.construct, by decide, by decide, by decide, by decide,
    getModel_after_loadModel_is_null none _ unlimitedStart .MusicVAE "" musicVAE
      (by decide) (by decide) (by decide) (by decide)⟩

/-- Claim C17 fails in its `getModel` half.  On an initialized server (any state reached
through calls that return) and for a key that is not in the catalog, `loadModel` returns false
and leaves the whole state as it is, so the resident set is unchanged and no callback is
invoked; but `getModel` calls `loadModel` while it holds the mutex and does not return. -/
theorem unknown_key_getModel_relocks (env : ModelEnv H) (table : List ModelMetadata)
    (s : ModelServer H) (hs : Completed env table s) (hinit : s.isInitialized = true)
    (type : ModelType) (modelName : String)
    (hkey : mapFind s.availableModels (type, modelName) = none) :
    loadModel env false s type modelName = some (s, false) ∧
    getModel env false s type modelName = none := by
  have hc := coherent_of_publicReachable env table s
    (publicReachable_of_completed env table s hs)
  have hnone : mapFind s.loadedModels (type, modelName) = none := by
    rw [mapFind_eq_none]
    intro hmem
    exact hc.2.1 _ hmem hkey
  constructor
  · simp [loadModel, lockGuard, hinit, hnone, hkey]
  · simp [getModel, lockGuard, hinit, hnone, loadModel_held]

/-- Claim C17 at the server of the unit test `ErrorHandling` and the key
`(MusicVAE, "non_existent_model")`: `loadModel` returns false, `getModel` does not return. -/
theorem unknown_key_getModel_relocks_witness :
    Completed sourceEnv placeholderModels modelLoadingStart ∧
    modelLoadingStart.isInitialized = true ∧
    mapFind modelLoadingStart.availableModels (.MusicVAE, "non_existent_model") = none ∧
    loadModel sourceEnv false modelLoadingStart .MusicVAE "non_existent_model"
      = some (modelLoadingStart, false) ∧
    getModel sourceEnv false modelLoadingStart .MusicVAE "non_existent_model" = none :=
  ⟨Completed.init _ _ _ _ _ Completed.construct, by decide, by decide,
    unknown_key_getModel_relocks sourceEnv placeholderModels modelLoadingStart
      (Completed.init _ _ _ _ _ Completed.construct) (by decide)
      .MusicVAE "non_existent_model" (by decide)⟩

/-- Claim C19 fails in its last part.  On an initialized server under a positive limit, the
`loadModel` of a catalog key that is not resident reaches `unloadModelsIfNeeded` while it
holds the mutex and does not return, whatever is resident: with exactly one other model
resident that model is not evicted, but the load does not proceed either.  In the states the
server is in after calls that return nothing is resident under a positive limit, so the call
that would make the first model resident is already one that does not return. -/
theorem single_resident_load_does_not_return (env : ModelEnv H) (s : ModelServer H)
    (type : ModelType) (modelName : String) (metadata : ModelMetadata)
    (hinit : s.isInitialized = true) (hmax : 0 < s.maxMemoryUsage)
    (hres : mapFind s.loadedModels (type, modelName) = none)
    (hav : mapFind s.availableModels (type, modelName) = some metadata) :
    loadModel env false s type modelName = none ∧
    (∀ table, Completed env table s → s.loadedModels = []) :=
  ⟨loadModel_relocks env s type modelName metadata hinit hmax hres hav,
    fun table hs => loadedModels_nil_of_completed env table s hs hmax⟩

/-- Claim C19 fails on its scenario, with a limit of 120MB.  After `initialize` the call
`loadModel(GrooVAE, "")` that would make the first model resident does not return; and in the
state `singleResident` (GrooVAE the one resident model), were the server in it,
`loadModel(MusicVAE, "")` does not return. -/
theorem single_resident_load_does_not_return_witness :
    Completed sourceEnv placeholderModels limitedStart ∧
    limitedStart.isInitialized = true ∧ 0 < limitedStart.maxMemoryUsage ∧
    mapFind limitedStart.availableModels (.GrooVAE, "") = some grooVAE ∧
    loadModel sourceEnv false limitedStart .GrooVAE "" = none ∧
    singleResident.loadedModels = [((.GrooVAE, ""), none)] ∧
    mapFind singleResident.availableModels (.MusicVAE, "") = some musicVAE ∧
    loadModel sourceEnv false singleResident .MusicVAE "" = none :=
  ⟨Completed.init _ _ _ _ _ Completed.construct, by decide, by decide, by decide,
    (single_resident_load_does_not_return sourceEnv limitedStart .GrooVAE "" grooVAE
      (by decide) (by decide) (by decide) (by decide)).1,
    rfl, by decide,
    (single_resident_load_does_not_return sourceEnv singleResident .MusicVAE "" musicVAE
      (by decide) (by decide) (by decide) (by decide)).1⟩

/-- Claim C20 fails: in every state, `setMaxMemoryUsage(b)` with `b > 0` stores the new limit
and then calls `getTotalMemoryUsage` while it holds the mutex, so it does not return; only
`setMaxMemoryUsage(0)` returns, and it changes nothing but the limit. -/
theorem setMaxMemoryUsage_positive_does_not_return (env : ModelEnv H) (s : ModelServer H)
    (b : Nat) (hb : 0 < b) :
    setMaxMemoryUsage env false s b = none ∧
    setMaxMemoryUsage env false s 0 = some { s with maxMemoryUsage := 0 } := by
  constructor
  · simp [setMaxMemoryUsage, lockGuard, hb, getTotalMemoryUsage_held]
  · simp [setMaxMemoryUsage, lockGuard]

/-- Claim C20 fails at the server `unlimitedOne` (no limit, MusicVAE resident after a
`loadModel` that returned true) and the new limit 50MB: the call does not return. -/
theorem setMaxMemoryUsage_positive_does_not_return_witness :
    Completed sourceEnv placeholderModels unlimitedOne ∧
    0 < 50 * 1024 * 1024 ∧
    setMaxMemoryUsage sourceEnv false unlimitedOne (50 * 1024 * 1024) = none ∧
    setMaxMemoryUsage sourceEnv false unlimitedOne 0
      = some { unlimitedOne with maxMemoryUsage := 0 } :=
  ⟨Completed.load unlimitedStart .MusicVAE "" (unlimitedOne, true)
      (Completed.init _ _ _ _ _ Completed.construct) rfl,
    by decide,
    setMaxMemoryUsage_positive_does_not_return sourceEnv unlimitedOne (50 * 1024 * 1024)
      (by decide)⟩

end Locking
end ModelServer

/-! ### The feature layer in binary32 (claims C10, C27) -/

namespace Ai
namespace MidiUtils
namespace Binary32

theorem abs_roundToFloat_ratio_sub_le (c : Int) (n : Nat) (hc : 0 ≤ c) (hn : 0 < n)
    (hN : n ≤ 2 ^ 24) :
    |roundToFloat ((c : ℚ) / (n : ℚ)) - (c : ℚ) / (n : ℚ)| ≤ (c : ℚ) / (n : ℚ) / 2 ^ 24 := by
  have hnq : (0 : ℚ) < (n : ℚ) := by exact_mod_cast hn
  rcases eq_or_lt_of_le hc with h0 | hpos
  · rw [← h0]; simp [roundToFloat_zero]
  · have hc1 : (1 : ℚ) ≤ (c : ℚ) := by exact_mod_cast hpos
    have hNq : (n : ℚ) ≤ 2 ^ 24 := by exact_mod_cast hN
    have hq : (0 : ℚ) < (c : ℚ) / (n : ℚ) := div_pos (by linarith) hnq
    have hlow : (2 : ℚ) ^ (-126 : Int) ≤ |(c : ℚ) / (n : ℚ)| := by
      rw [abs_of_pos hq, le_div_iff₀ hnq]
      calc (2 : ℚ) ^ (-126 : Int) * (n : ℚ) ≤ 2 ^ (-126 : Int) * 2 ^ 24 :=
            mul_le_mul_of_nonneg_left hNq (by positivity)
        _ ≤ 1 := by norm_num
        _ ≤ (c : ℚ) := hc1
    have := abs_roundToFloat_sub_le _ hlow
    rwa [abs_of_pos hq] at this

theorem abs_sum_roundToFloat_sub_le (n : Nat) (hn : 0 < n) (hN : n ≤ 2 ^ 24) :
    ∀ l : List Int, (∀ c ∈ l, 0 ≤ c) →
      |(l.map (fun (c : Int) => roundToFloat ((c : ℚ) / (n : ℚ)))).sum
          - ((l.sum : Int) : ℚ) / (n : ℚ)|
        ≤ ((l.sum : Int) : ℚ) / (n : ℚ) / 2 ^ 24 := by
  intro l
  induction l with
  | nil => intro _; simp
  | cons a rest ih =>
    intro h
    have ha := abs_roundToFloat_ratio_sub_le a n (h a (List.mem_cons_self _ _)) hn hN
    have hr := ih (fun c hc => h c (List.mem_cons_of_mem _ hc))
    simp only [List.map_cons, List.sum_cons]
    rw [Int.cast_add]
    have e : roundToFloat ((a : ℚ) / (n : ℚ))
          + (rest.map (fun (c : Int) => roundToFloat ((c : ℚ) / (n : ℚ)))).sum
          - ((a : ℚ) + ((rest.sum : Int) : ℚ)) / (n : ℚ)
        = (roundToFloat ((a : ℚ) / (n : ℚ)) - (a : ℚ) / (n : ℚ))
          + ((rest.map (fun (c : Int) => roundToFloat ((c : ℚ) / (n : ℚ)))).sum
            - ((rest.sum : Int) : ℚ) / (n : ℚ)) := by ring
    rw [e]
    calc |(roundToFloat ((a : ℚ) / (n : ℚ)) - (a : ℚ) / (n : ℚ))
          + ((rest.map (fun (c : Int) => roundToFloat ((c : ℚ) / (n : ℚ)))).sum
            - ((rest.sum : Int) : ℚ) / (n : ℚ))|
        ≤ |roundToFloat ((a : ℚ) / (n : ℚ)) - (a : ℚ) / (n : ℚ)|
          + |(rest.map (fun (c : Int) => roundToFloat ((c : ℚ) / (n : ℚ)))).sum
            - ((rest.sum : Int) : ℚ) / (n : ℚ)| := abs_add _ _
      _ ≤ (a : ℚ) / (n : ℚ) / 2 ^ 24 + ((rest.sum : Int) : ℚ) / (n : ℚ) / 2 ^ 24 :=
          add_le_add ha hr
      _ = ((a : ℚ) + ((rest.sum : Int) : ℚ)) / (n : ℚ) / 2 ^ 24 := by ring

theorem fdiv_count (c : Int) (n : Nat) (hn : 0 < n) (hN : n ≤ 2 ^ 24) (hc : |c| ≤ 2 ^ 24) :
    fdiv (some (roundToFloat (c : ℚ))) (some (roundToFloat ((n : Nat) : ℚ)))
      = some (roundToFloat ((c : ℚ) / (n : ℚ))) := by
  have h1 : roundToFloat ((n : Nat) : ℚ) = (n : ℚ) := by
    have := roundToFloat_intCast (n : Int) (by
      rw [abs_of_nonneg (by positivity)]; exact_mod_cast hN)
    simpa using this
  have hne : (n : ℚ) ≠ 0 := by
    have : n ≠ 0 := by omega
    exact_mod_cast this
  simp [fdiv, h1, roundToFloat_intCast c hc, hne]

theorem extractSequenceFeatures_eq_finiteFeatures (s : MidiSequence) (hne : s.notes ≠ [])
    (hp : ∀ n ∈ s.notes, 0 ≤ n.pitch ∧ n.pitch ≤ 127) (hT : 0 < s.totalTicks)
    (hN : s.notes.length ≤ 2 ^ 24) (hTT : s.totalTicks ≤ 2 ^ 24) :
    extractSequenceFeatures s = (finiteFeatures s).map some := by
  obtain ⟨_, _, _, p1, p2, p3⟩ := histogramsOk_histograms s
  obtain ⟨s1, s2, s3⟩ := histogram_sums s hp
  have hn : 0 < s.notes.length := List.length_pos.mpr hne
  have hNi : ((s.notes.length : Nat) : Int) ≤ 2 ^ 24 := by exact_mod_cast hN
  have b1 : ∀ c ∈ (histograms s).pitchHistogram, |c| ≤ 2 ^ 24 := fun c hc => by
    have := List.single_le_sum p1 c hc
    rw [abs_of_nonneg (p1 c hc)]; omega
  have b2 : ∀ c ∈ (histograms s).rhythmHistogram, |c| ≤ 2 ^ 24 := fun c hc => by
    have := List.single_le_sum p2 c hc
    rw [abs_of_nonneg (p2 c hc)]; omega
  have b3 : ∀ c ∈ (histograms s).velocityHistogram, |c| ≤ 2 ^ 24 := fun c hc => by
    have := List.single_le_sum p3 c hc
    rw [abs_of_nonneg (p3 c hc)]; omega
  have hlast : fdiv (some (roundToFloat ((s.notes.length : Nat) : ℚ)))
      (some (roundToFloat (s.totalTicks : ℚ)))
      = some (roundToFloat ((s.notes.length : ℚ) / (s.totalTicks : ℚ))) := by
    have h1 : roundToFloat ((s.notes.length : Nat) : ℚ) = (s.notes.length : ℚ) := by
      have := roundToFloat_intCast (s.notes.length : Int) (by
        rw [abs_of_nonneg (by positivity)]; exact hNi)
      simpa using this
    have h2 : roundToFloat (s.totalTicks : ℚ) = (s.totalTicks : ℚ) :=
      roundToFloat_intCast _ (by rw [abs_of_pos hT]; exact hTT)
    have hne' : (s.totalTicks : ℚ) ≠ 0 := by exact_mod_cast hT.ne.symm
    simp [fdiv, h1, h2, hne']
  simp only [extractSequenceFeatures, finiteFeatures, List.map_append, List.map_map,
    List.map_cons, List.map_nil, hlast]
  congr 1
  congr 1
  congr 1
  · exact List.map_congr_left (fun c hc => fdiv_count c _ hn hN (b1 c hc))
  · exact List.map_congr_left (fun c hc => fdiv_count c _ hn hN (b2 c hc))
  · exact List.map_congr_left (fun c hc => fdiv_count c _ hn hN (b3 c hc))

theorem length_finiteFeatures_binary32 (s : MidiSequence) : (finiteFeatures s).length = 161 := by
  obtain ⟨l1, l2, l3, _⟩ := histogramsOk_histograms s
  simp [finiteFeatures, l1, l2, l3]

theorem abs_sum_bins_sub_one_le (n : Nat) (hn : 0 < n) (hN : n ≤ 2 ^ 24) (l : List Int)
    (hl : ∀ c ∈ l, 0 ≤ c) (hs : l.sum = (n : Int)) :
    |(l.map (fun (c : Int) => roundToFloat ((c : ℚ) / (n : ℚ)))).sum - 1| ≤ 1 / 2 ^ 24 := by
  have hne : (n : ℚ) ≠ 0 := by
    have : n ≠ 0 := by omega
    exact_mod_cast this
  have h := abs_sum_roundToFloat_sub_le n hn hN l hl
  rw [hs] at h
  have e : (((n : Nat) : Int) : ℚ) / (n : ℚ) = 1 := by
    rw [Int.cast_natCast]; exact div_self hne
  rwa [e] at h

theorem histograms_tenNotes :
    (histograms tenNotes).pitchHistogram
      = List.replicate 60 0 ++ List.replicate 10 1 ++ List.replicate 58 0 ∧
    (histograms tenNotes).rhythmHistogram = [10] ++ List.replicate 15 0 ∧
    (histograms tenNotes).velocityHistogram
      = List.replicate 8 0 ++ [10] ++ List.replicate 7 0 := by
  refine ⟨by decide, by decide, by decide⟩

theorem roundToFloat_tenth : roundToFloat (1 / 10) = 13421773 / 134217728 := by
  rw [roundToFloat_eval _ (-4) 13421773 (by norm_num [abs_of_pos]) (by norm_num [abs_of_pos])
    (by norm_num) (by norm_num [abs_lt])]
  norm_num

theorem pitch_bins_tenNotes :
    (finiteFeatures tenNotes).take 128
      = List.replicate 60 0 ++ List.replicate 10 (13421773 / 134217728)
        ++ List.replicate 58 0 := by
  obtain ⟨h1, h2, h3⟩ := histograms_tenNotes
  have hn : (tenNotes.notes.length : ℚ) = 10 := by simp [tenNotes]
  have hA : ((histograms tenNotes).pitchHistogram.map
      (fun (count : Int) => roundToFloat ((count : ℚ) / (tenNotes.notes.length : ℚ)))).length
      = 128 := by simp [h1]
  simp only [finiteFeatures, List.append_assoc]
  rw [List.take_left' hA, h1, hn]
  simp only [List.map_append, List.map_replicate, Int.cast_zero, Int.cast_one, zero_div,
    roundToFloat_zero, roundToFloat_tenth, List.append_assoc]

theorem foldl_floatSum_zeros (n : Nat) (a : ℚ) (ha : roundToFloat a = a) :
    (List.replicate n (0 : ℚ)).foldl (fun acc x => roundToFloat (acc + x)) a = a := by
  induction n with
  | zero => rfl
  | succ n ih => rw [List.replicate_succ, List.foldl_cons, add_zero, ha, ih]

theorem floatSum_tenth_1 :
    roundToFloat ((0 : ℚ) + 13421773 / 134217728) = 13421773 / 134217728 := by
  rw [roundToFloat_eval _ (-4) 13421773 (by norm_num [abs_of_pos]) (by norm_num [abs_of_pos])
    (by norm_num) (by norm_num [abs_lt])]
  norm_num

theorem floatSum_tenth_2 :
    roundToFloat ((13421773 / 134217728 : ℚ) + 13421773 / 134217728) = 13421773 / 67108864 := by
  rw [roundToFloat_eval _ (-3) 13421773 (by norm_num [abs_of_pos]) (by norm_num [abs_of_pos])
    (by norm_num) (by norm_num [abs_lt])]
  norm_num

theorem floatSum_tenth_3 :
    roundToFloat ((13421773 / 67108864 : ℚ) + 13421773 / 134217728) = 5033165 / 16777216 := by
  rw [roundToFloat_eval _ (-2) 10066330 (by norm_num [abs_of_pos]) (by norm_num [abs_of_pos])
    (by norm_num) (by norm_num [abs_lt])]
  norm_num

theorem floatSum_tenth_4 :
    roundToFloat ((5033165 / 16777216 : ℚ) + 13421773 / 134217728) = 13421773 / 33554432 := by
  rw [roundToFloat_eval _ (-2) 13421773 (by norm_num [abs_of_pos]) (by norm_num [abs_of_pos])
    (by norm_num) (by norm_num [abs_lt])]
  norm_num

theorem floatSum_tenth_5 :
    roundToFloat ((13421773 / 33554432 : ℚ) + 13421773 / 134217728) = 1 / 2 := by
  rw [roundToFloat_eval _ (-1) 8388608 (by norm_num [abs_of_pos]) (by norm_num [abs_of_pos])
    (by norm_num) (by norm_num [abs_lt])]
  norm_num

theorem floatSum_tenth_6 :
    roundToFloat ((1 / 2 : ℚ) + 13421773 / 134217728) = 5033165 / 8388608 := by
  rw [roundToFloat_eval _ (-1) 10066330 (by norm_num [abs_of_pos]) (by norm_num [abs_of_pos])
    (by norm_num) (by norm_num [abs_lt])]
  norm_num

theorem floatSum_tenth_7 :
    roundToFloat ((5033165 / 8388608 : ℚ) + 13421773 / 134217728) = 2936013 / 4194304 := by
  rw [roundToFloat_eval _ (-1) 11744052 (by norm_num [abs_of_pos]) (by norm_num [abs_of_pos])
    (by norm_num) (by norm_num [abs_lt])]
  norm_num

theorem floatSum_tenth_8 :
    roundToFloat ((2936013 / 4194304 : ℚ) + 13421773 / 134217728) = 6710887 / 8388608 := by
  rw [roundToFloat_eval _ (-1) 13421774 (by norm_num [abs_of_pos]) (by norm_num [abs_of_pos])
    (by norm_num) (by norm_num [abs_lt])]
  norm_num

theorem floatSum_tenth_9 :
    roundToFloat ((6710887 / 8388608 : ℚ) + 13421773 / 134217728) = 1887437 / 2097152 := by
  rw [roundToFloat_eval _ (-1) 15099496 (by norm_num [abs_of_pos]) (by norm_num [abs_of_pos])
    (by norm_num) (by norm_num [abs_lt])]
  norm_num

theorem floatSum_tenth_10 :
    roundToFloat ((1887437 / 2097152 : ℚ) + 13421773 / 134217728) = 8388609 / 8388608 := by
  rw [roundToFloat_eval _ (0) 8388609 (by norm_num [abs_of_pos]) (by norm_num [abs_of_pos])
    (by norm_num) (by norm_num [abs_lt])]
  norm_num

theorem roundToFloat_tenNotes_sum : roundToFloat (8388609 / 8388608) = 8388609 / 8388608 := by
  rw [roundToFloat_eval _ 0 8388609 (by norm_num [abs_of_pos]) (by norm_num [abs_of_pos])
    (by norm_num) (by norm_num [abs_lt])]
  norm_num

theorem floatSum_pitch_bins_tenNotes :
    floatSum (List.replicate 60 0 ++ List.replicate 10 (13421773 / 134217728)
      ++ List.replicate 58 0) = 8388609 / 8388608 := by
  unfold floatSum
  rw [List.foldl_append, List.foldl_append, foldl_floatSum_zeros 60 0 roundToFloat_zero]
  have h : (List.replicate 10 (13421773 / 134217728 : ℚ)).foldl
      (fun acc x => roundToFloat (acc + x)) 0 = 8388609 / 8388608 := by
    simp only [List.replicate, List.foldl_cons, List.foldl_nil]
    rw [floatSum_tenth_1, floatSum_tenth_2, floatSum_tenth_3, floatSum_tenth_4,
      floatSum_tenth_5, floatSum_tenth_6, floatSum_tenth_7, floatSum_tenth_8,
      floatSum_tenth_9, floatSum_tenth_10]
  rw [h, foldl_floatSum_zeros 58 _ roundToFloat_tenNotes_sum]

/-- Claim C27 fails in binary32.  For the ten notes of `tenNotes` (pitches 60 to 69, in range)
each of the ten non-zero pitch bins is the float `1.0f / 10.0f = 13421773 / 2 ^ 27`, which is
above `1 / 10`: the 128 pitch bins sum to `1 + 2 ^ -26` exactly, and to
`1 + 2 ^ -23 = 1.00000012` when accumulated in a float; neither is 1. -/
theorem pitch_bins_tenNotes_sum_above_one :
    extractSequenceFeatures tenNotes = (finiteFeatures tenNotes).map some ∧
    (finiteFeatures tenNotes).take 128
      = List.replicate 60 0 ++ List.replicate 10 (13421773 / 134217728)
        ++ List.replicate 58 0 ∧
    ((finiteFeatures tenNotes).take 128).sum = 67108865 / 67108864 ∧
    floatSum ((finiteFeatures tenNotes).take 128) = 8388609 / 8388608 ∧
    (67108865 / 67108864 : ℚ) ≠ 1 ∧ (8388609 / 8388608 : ℚ) ≠ 1 := by
  refine ⟨extractSequenceFeatures_eq_finiteFeatures tenNotes (by decide) (by decide)
    (by decide) (by decide) (by decide), pitch_bins_tenNotes, ?_, ?_, by norm_num,
    by norm_num⟩
  · rw [pitch_bins_tenNotes]
    simp only [List.sum_append, List.sum_replicate, smul_eq_mul, nsmul_eq_mul]
    norm_num
  · rw [pitch_bins_tenNotes]
    exact floatSum_pitch_bins_tenNotes

/-- Claim C27, amended.  For every non-empty sequence whose pitches are in `[0, 127]`, with at
most `2 ^ 24` notes and `0 < totalTicks ≤ 2 ^ 24` (whatever the velocities and start times,
which the code clamps to a bin), `extractSequenceFeatures` in binary32 returns 161 finite
values: the 128 pitch bins sum to within `2 ^ -24` of 1, so do the 16 rhythm bins and the 16
velocity bins (the sums taken exactly), and the last value is `noteCount / totalTicks` rounded
to a float, within a relative `2 ^ -24` of the quotient. -/
theorem extractSequenceFeatures_nearly_normalized (s : MidiSequence) (hne : s.notes ≠ [])
    (hp : ∀ n ∈ s.notes, 0 ≤ n.pitch ∧ n.pitch ≤ 127) (hT : 0 < s.totalTicks)
    (hN : s.notes.length ≤ 2 ^ 24) (hTT : s.totalTicks ≤ 2 ^ 24) :
    ∃ f : List ℚ, extractSequenceFeatures s = f.map some ∧ f.length = 161 ∧
      |(f.take 128).sum - 1| ≤ 1 / 2 ^ 24 ∧
      |((f.drop 128).take 16).sum - 1| ≤ 1 / 2 ^ 24 ∧
      |((f.drop 144).take 16).sum - 1| ≤ 1 / 2 ^ 24 ∧
      f[160]? = some (roundToFloat ((s.notes.length : ℚ) / (s.totalTicks : ℚ))) ∧
      |roundToFloat ((s.notes.length : ℚ) / (s.totalTicks : ℚ))
          - (s.notes.length : ℚ) / (s.totalTicks : ℚ)|
        ≤ (s.notes.length : ℚ) / (s.totalTicks : ℚ) / 2 ^ 24 := by
  refine ⟨finiteFeatures s, extractSequenceFeatures_eq_finiteFeatures s hne hp hT hN hTT,
    length_finiteFeatures_binary32 s, ?_⟩
  obtain ⟨l1, l2, l3, p1, p2, p3⟩ := histogramsOk_histograms s
  obtain ⟨s1, s2, s3⟩ := histogram_sums s hp
  have hn : 0 < s.notes.length := List.length_pos.mpr hne
  have hA : ((histograms s).pitchHistogram.map
      (fun (count : Int) => roundToFloat ((count : ℚ) / (s.notes.length : ℚ)))).length
      = 128 := by simp [l1]
  have hB : ((histograms s).rhythmHistogram.map
      (fun (count : Int) => roundToFloat ((count : ℚ) / (s.notes.length : ℚ)))).length
      = 16 := by simp [l2]
  have hC : ((histograms s).velocityHistogram.map
      (fun (count : Int) => roundToFloat ((count : ℚ) / (s.notes.length : ℚ)))).length
      = 16 := by simp [l3]
  have e1 := abs_sum_bins_sub_one_le s.notes.length hn hN _ p1 s1
  have e2 := abs_sum_bins_sub_one_le s.notes.length hn hN _ p2 s2
  have e3 := abs_sum_bins_sub_one_le s.notes.length hn hN _ p3 s3
  simp only [finiteFeatures, List.append_assoc]
  refine ⟨?_, ?_, ?_, ?_, ?_⟩
  · rw [List.take_left' hA]; exact e1
  · rw [List.drop_left' hA, List.take_left' hB]; exact e2
  · rw [← List.append_assoc, List.drop_left' (by rw [List.length_append, hA, hB]),
      List.take_left' hC]
    exact e3
  · rw [← List.append_assoc, ← List.append_assoc,
      List.getElem?_append_right (by simp [l1, l2, l3])]
    simp [l1, l2, l3]
  · have hTn : ((s.totalTicks.toNat : Nat) : Int) = s.totalTicks := Int.toNat_of_nonneg hT.le
    have hTq : ((s.totalTicks.toNat : Nat) : ℚ) = (s.totalTicks : ℚ) := by
      have : (((s.totalTicks.toNat : Nat) : Int) : ℚ) = (s.totalTicks : ℚ) := by rw [hTn]
      rwa [Int.cast_natCast] at this
    have h := abs_roundToFloat_ratio_sub_le (s.notes.length : Int) s.totalTicks.toNat
      (by positivity) (by omega) (by
        have : ((s.totalTicks.toNat : Nat) : Int) ≤ 2 ^ 24 := by rw [hTn]; exact hTT
        exact_mod_cast this)
    rw [hTq, Int.cast_natCast] at h
    exact h

/-- Claim C27, amended, at the ten notes of `tenNotes`. -/
theorem extractSequenceFeatures_nearly_normalized_witness :
    tenNotes.notes ≠ [] ∧ (∀ n ∈ tenNotes.notes, 0 ≤ n.pitch ∧ n.pitch ≤ 127) ∧
    0 < tenNotes.totalTicks ∧ tenNotes.notes.length ≤ 2 ^ 24 ∧ tenNotes.totalTicks ≤ 2 ^ 24 ∧
    ∃ f : List ℚ, extractSequenceFeatures tenNotes = f.map some ∧ f.length = 161 ∧
      |(f.take 128).sum - 1| ≤ 1 / 2 ^ 24 ∧
      |((f.drop 128).take 16).sum - 1| ≤ 1 / 2 ^ 24 ∧
      |((f.drop 144).take 16).sum - 1| ≤ 1 / 2 ^ 24 ∧
      f[160]? = some (roundToFloat ((tenNotes.notes.length : ℚ) / (tenNotes.totalTicks : ℚ))) ∧
      |roundToFloat ((tenNotes.notes.length : ℚ) / (tenNotes.totalTicks : ℚ))
          - (tenNotes.notes.length : ℚ) / (tenNotes.totalTicks : ℚ)|
        ≤ (tenNotes.notes.length : ℚ) / (tenNotes.totalTicks : ℚ) / 2 ^ 24 :=
  ⟨by decide, by decide, by decide, by decide, by decide,
    extractSequenceFeatures_nearly_normalized tenNotes (by decide) (by decide) (by decide)
      (by decide) (by decide)⟩

end Binary32
end MidiUtils
end Ai

end LmmsMagenta
